import Mathlib

/-! # Autocomplete controller of `static/cozyyu/js/main.js`

A shallow embedding of the search-autocomplete code of `main.js` (lines 13-145):
the closure variables `searchInput`, `suggestionsBox`, `searchForm`,
`debounceTimer`, `currentFocus` form the state, every listener is a function
from a state to a new state plus the list of effects it produced, and a
JavaScript exception is an explicit result.

Modelling conventions.

* An element looked up with `getElementById` is `some _` when the page has it
  and `none` (JavaScript `null`) when it has not.
* The suggestions container is modelled by its `show` class and the list of
  its `.autocomplete-item` children, each with its `active` class.
* JSON values are the results of `JSON.parse`. A number is given by the string
  that `String(n)` returns for it (`"0"` for both zeros, `"1e+21"`,
  `"Infinity"`): the code reads a number only through its truthiness, the test
  `=== 0` and that string.
* The search input is an input element holding free text (type `text`,
  `search` or none): a value assigned to it is stored with its line breaks
  removed.
* Time is a natural number of milliseconds. The browser keeps the list of the
  pending timers of the script, each with its id, the time at which it is due
  and the query captured by its callback; the variable `debounceTimer` holds
  the id returned by the last `setTimeout`.
* A lookup response may arrive at any time; the event loop does not tie it to
  an earlier request, which only enlarges the set of reachable states.
-/

namespace Autocomplete

/-! ## JavaScript values -/

/-- Values produced by `JSON.parse`. A number carries the string `String(n)`
of the double it was parsed to. -/
inductive JsVal where
  | null : JsVal
  | bool (b : Bool) : JsVal
  | num (printed : String) : JsVal
  | str (s : String) : JsVal
  | arr (xs : List JsVal) : JsVal
  | obj (props : List (String × JsVal)) : JsVal
  deriving Repr

/-- Exceptions the code can meet. -/
inductive JsError where
  /-- Rejection of `fetch`: the request could not be completed. -/
  | networkFailure : JsError
  /-- Rejection of `response.json()`: the body is not valid JSON. -/
  | syntaxError : JsError
  /-- A property of `null`/`undefined` was accessed, a non-function was
  called, or an object could not be converted to a string. -/
  | typeError : JsError
  deriving DecidableEq, Repr

/-- Own data property `k` of a parsed object, first entry of the property list. -/
def lookupProp (k : String) : List (String × JsVal) → Option JsVal
  | [] => none
  | (k', v) :: rest => if k' = k then some v else lookupProp k rest

/-- Property read `v.k` for the data properties the code reads (`suggestions`,
`text`, `type`): `none` is `undefined`, reading from `null` throws. -/
def JsVal.get (v : JsVal) (k : String) : Except JsError (Option JsVal) :=
  match v with
  | .null => .error .typeError
  | .obj props => .ok (lookupProp k props)
  | _ => .ok none

/-- JavaScript truthiness of a possibly `undefined` JSON value. -/
def truthy : Option JsVal → Bool
  | none => false
  | some .null => false
  | some (.bool b) => b
  | some (.num printed) => printed ≠ "0"
  | some (.str s) => s ≠ ""
  | some (.arr _) => true
  | some (.obj _) => true

/-- The test `suggestions.length === 0` for a truthy value. -/
def lengthIsZero : Option JsVal → Bool
  | some (.arr xs) => xs.isEmpty
  | some (.str s) => s.isEmpty
  | some (.obj props) =>
    match lookupProp "length" props with
    | some (.num printed) => printed = "0"
    | _ => false
  | _ => false

mutual
/-- JavaScript `ToString` on a JSON value; `none` when it throws a `TypeError`
(an object whose own `toString` property hides `Object.prototype.toString`). -/
def JsVal.toJsString : JsVal → Option String
  | .null => some "null"
  | .bool b => some (if b then "true" else "false")
  | .num printed => some printed
  | .str s => some s
  | .arr xs => JsVal.joinJsString xs
  | .obj props =>
    if (props.map Prod.fst).contains "toString" then none else some "[object Object]"
/-- The method `Array.prototype.join` with the default separator: `null`
elements render as the empty string. -/
def JsVal.joinJsString : List JsVal → Option String
  | [] => some ""
  | x :: xs =>
    match (match x with | .null => some "" | v => JsVal.toJsString v),
      JsVal.joinJsString xs with
    | some a, some b => some (if xs.isEmpty then a else a ++ "," ++ b)
    | _, _ => none
end

/-- Conversion applied by the `textContent` setter (a nullable DOMString):
`undefined` and `null` give the empty text. -/
def toTextContent : Option JsVal → Except JsError String
  | none => .ok ""
  | some .null => .ok ""
  | some v =>
    match v.toJsString with
    | some s => .ok s
    | none => .error .typeError

/-- Value sanitisation of a free-text input: line feeds and carriage returns
are removed. -/
def stripNewlines (s : String) : String :=
  ⟨s.data.filter fun c => !(c.toNat = 0x0A || c.toNat = 0x0D)⟩

/-- Value stored by the `value` setter of the search input: the conversion of
a `[LegacyNullToEmptyString] DOMString` followed by the sanitisation. -/
def toInputValue : Option JsVal → Except JsError String
  | none => .ok "undefined"
  | some .null => .ok ""
  | some v =>
    match v.toJsString with
    | some s => .ok (stripNewlines s)
    | none => .error .typeError

/-- White space and line terminators removed by `String.prototype.trim`. -/
def isJsWhiteSpace (c : Char) : Bool :=
  let n := c.toNat
  n = 0x09 || n = 0x0A || n = 0x0B || n = 0x0C || n = 0x0D || n = 0x20 ||
  n = 0xA0 || n = 0x1680 || (0x2000 ≤ n && n ≤ 0x200A) || n = 0x2028 ||
  n = 0x2029 || n = 0x202F || n = 0x205F || n = 0x3000 || n = 0xFEFF

/-- The method `String.prototype.trim`. -/
def jsTrim (s : String) : String :=
  ⟨((s.data.dropWhile isJsWhiteSpace).reverse.dropWhile isJsWhiteSpace).reverse⟩

/-! ## Page elements and controller state -/

/-- A rendered `div.autocomplete-item`. -/
structure Item where
  /-- Text of its `span.autocomplete-item-text`. -/
  text : String
  /-- Text of its `span.autocomplete-item-type`. -/
  type : String
  /-- The `suggestion` captured by its click listener. -/
  suggestion : JsVal
  /-- Whether its class list holds `active`. -/
  active : Bool
  deriving Repr

/-- The element `#autocomplete-suggestions`. -/
structure Box where
  /-- Whether its class list holds `show`. -/
  showClass : Bool
  /-- Its `.autocomplete-item` children, in document order. -/
  items : List Item
  deriving Repr

/-- A timer scheduled by `setTimeout(function(){ fetchSuggestions(query) }, 300)`. -/
structure Timer where
  /-- The id that `setTimeout` returned. -/
  id : Nat
  /-- Time at which the callback is due. -/
  due : Nat
  /-- The `query` captured by the callback. -/
  query : String
  deriving DecidableEq, Repr

/-- Closure state of the `DOMContentLoaded` callback. -/
structure State where
  /-- The variable `searchInput`: the value of `#search-input`, or `null`. -/
  searchInput : Option String
  /-- The variable `suggestionsBox`. -/
  suggestionsBox : Option Box
  /-- The variable `searchForm`: whether `#search-form` exists. -/
  searchForm : Bool
  /-- Page markup: whether `#autocomplete-suggestions` lies inside `#search-form`. -/
  boxInForm : Bool
  /-- The variable `debounceTimer`: `undefined`, or the id returned by the
  last `setTimeout`. -/
  debounceTimer : Option Nat
  /-- The pending timers of the script, in the order they were set. -/
  timers : List Timer
  /-- The id the next `setTimeout` returns. -/
  nextTimerId : Nat
  /-- The variable `currentFocus`. -/
  currentFocus : Int
  deriving Repr

/-- Observable effects of a listener. -/
inductive Effect where
  /-- A call `fetchSuggestions(query)`, which issues the request. -/
  | lookup (query : String) : Effect
  /-- The call `console.error('Autocomplete error:', error)`. -/
  | consoleError (e : JsError) : Effect
  /-- The call `e.preventDefault()`. -/
  | preventDefault : Effect
  /-- The call `searchForm.submit()`. -/
  | formSubmit : Effect
  /-- An exception that left a listener uncaught. -/
  | uncaught (e : JsError) : Effect
  deriving DecidableEq, Repr

/-- Result of running a listener. -/
structure Outcome where
  /-- State after the listener. -/
  state : State
  /-- Effects in the order they happened. -/
  effects : List Effect

/-- State right after the script ran on a page: panel hidden, no items,
`currentFocus = -1`, no timer. -/
def initialState (input : Option String) (hasBox hasForm boxInForm : Bool) : State :=
  { searchInput := input
    suggestionsBox := if hasBox then some ⟨false, []⟩ else none
    searchForm := hasForm
    boxInForm := boxInForm
    debounceTimer := none
    timers := []
    nextTimerId := 1
    currentFocus := -1 }

/-- The guard `searchInput && suggestionsBox` (line 20): whether the input,
keydown and document click listeners were registered. -/
def State.autocompleteActive (s : State) : Bool :=
  s.searchInput.isSome && s.suggestionsBox.isSome

/-- Whether the panel carries the `show` class. -/
def State.shown (s : State) : Bool :=
  match s.suggestionsBox with
  | some box => box.showClass
  | none => false

/-- The rendered suggestion items. -/
def State.items (s : State) : List Item :=
  match s.suggestionsBox with
  | some box => box.items
  | none => []

/-! ## Functions of the script -/

/-- The call `clearTimeout(id)`: the pending timer of that id is removed; an
`undefined` id or the id of no pending timer changes nothing. -/
def clearTimeout (id : Option Nat) (timers : List Timer) : List Timer :=
  match id with
  | none => timers
  | some i => timers.filter fun t => t.id != i

/-- The function `hideSuggestions` (lines 115-119). It throws on its first
statement, before any change, when `suggestionsBox` is `null`. -/
def hideSuggestions (s : State) : Except JsError State :=
  match s.suggestionsBox with
  | none => .error .typeError
  | some _ => .ok { s with suggestionsBox := some ⟨false, []⟩, currentFocus := -1 }

/-- The function `removeActive` (lines 133-137). -/
def removeActive (items : List Item) : List Item :=
  items.map fun it => { it with active := false }

/-- The statement `items[currentFocus].classList.add('active')` under its guard
`if(items[currentFocus])`. -/
def setActiveAt (items : List Item) (focus : Int) : List Item :=
  if 0 ≤ focus ∧ focus.toNat < items.length then
    items.modify (fun it => { it with active := true }) focus.toNat
  else items

/-- The two wraparound tests of `addActive` (lines 125-126), in order. -/
def wrapFocus (focus : Int) (n : Nat) : Int :=
  let f1 := if focus ≥ (n : Int) then 0 else focus
  if f1 < 0 then (n : Int) - 1 else f1

/-- The function `addActive` (lines 121-131) on the live collection of the
box: returns the new items and the new `currentFocus`. -/
def addActive (items : List Item) (focus : Int) : List Item × Int :=
  let items1 := removeActive items
  let focus1 := wrapFocus focus items.length
  (setActiveAt items1 focus1, focus1)

/-- One call of the `forEach` callback of `displaySuggestions` (lines 88-110):
the item to append, or the exception thrown before `appendChild`. -/
def renderItem (suggestion : JsVal) : Except JsError Item :=
  match suggestion.get "text" with
  | .error e => .error e
  | .ok text =>
    match toTextContent text with
    | .error e => .error e
    | .ok textStr =>
      match suggestion.get "type" with
      | .error e => .error e
      | .ok type =>
        match toTextContent type with
        | .error e => .error e
        | .ok typeStr => .ok ⟨textStr, typeStr, suggestion, false⟩

/-- The loop `suggestions.forEach(...)`: items appended so far and the
exception that stopped the loop, if any. -/
def renderItems : List JsVal → List Item × Option JsError
  | [] => ([], none)
  | x :: xs =>
    match renderItem x with
    | .error e => ([], some e)
    | .ok it =>
      let r := renderItems xs
      (it :: r.1, r.2)

/-- The function `displaySuggestions` (lines 79-113): the state it leaves and
the exception it throws, if any. -/
def displaySuggestions (suggestions : Option JsVal) (s : State) :
    State × Option JsError :=
  match s.suggestionsBox with
  | none => (s, some .typeError)
  | some box =>
    let s1 : State :=
      { s with suggestionsBox := some { box with items := [] }, currentFocus := -1 }
    if !truthy suggestions || lengthIsZero suggestions then
      match hideSuggestions s1 with
      | .ok s2 => (s2, none)
      | .error e => (s1, some e)
    else
      match suggestions with
      | some (.arr xs) =>
        let r := renderItems xs
        match r.2 with
        | some e =>
          ({ s1 with suggestionsBox := some ⟨box.showClass, r.1⟩ }, some e)
        | none => ({ s1 with suggestionsBox := some ⟨true, r.1⟩ }, none)
      | _ => (s1, some .typeError)

/-! ## Listeners -/

/-- The `input` listener of the search input (lines 22-36), run at time `now`
after the browser set the input's value to `value`. -/
def onInput (now : Nat) (value : String) (s : State) : Outcome :=
  match s.searchInput, s.suggestionsBox with
  | some _, some _ =>
    let query := jsTrim value
    let s1 : State :=
      { s with searchInput := some value, timers := clearTimeout s.debounceTimer s.timers }
    if query.length < 1 then
      match hideSuggestions s1 with
      | .ok s2 => ⟨s2, []⟩
      | .error e => ⟨s1, [.uncaught e]⟩
    else
      ⟨{ s1 with
          debounceTimer := some s1.nextTimerId,
          timers := s1.timers ++ [⟨s1.nextTimerId, now + 300, query⟩],
          nextTimerId := s1.nextTimerId + 1 }, []⟩
  | some _, none => ⟨{ s with searchInput := some value }, []⟩
  | none, _ => ⟨s, []⟩

/-- The callback of a timer (lines 33-35): it calls `fetchSuggestions(query)`,
which issues the request. -/
def timerCallback (t : Timer) : Effect :=
  .lookup t.query

/-- The pending timers selected by `fires` fire, in the order they were set:
each leaves the list of pending timers and runs its callback. -/
def fireTimers (fires : Timer → Bool) (s : State) : Outcome :=
  ⟨{ s with timers := s.timers.filter fun t => !fires t },
    (s.timers.filter fires).map timerCallback⟩

/-- The timer of id `id` fires, if it is pending. -/
def onTimer (id : Nat) (s : State) : Outcome :=
  fireTimers (fun t => t.id == id) s

/-- A completed `fetch`: the status line and the body as `JSON.parse` reads it
(`none` when the body is not valid JSON). -/
structure Response where
  /-- HTTP status code. -/
  status : Nat
  /-- Parsed body. -/
  body : Option JsVal

/-- How the request of a lookup ends. -/
inductive FetchResult where
  /-- The promise of `fetch` rejects: no response was received. -/
  | failed : FetchResult
  /-- The promise of `fetch` fulfils with a response, whatever its status. -/
  | received (r : Response) : FetchResult

/-- The promise chain of `fetchSuggestions` (lines 69-76) once the request has
ended: `fetch(..).then(json).then(display).catch(log)`. -/
def onFetchResult (r : FetchResult) (s : State) : Outcome :=
  let fetched : Except JsError Response :=
    match r with
    | .failed => .error .networkFailure
    | .received resp => .ok resp
  let parsed : Except JsError JsVal :=
    match fetched with
    | .error e => .error e
    | .ok resp =>
      match resp.body with
      | none => .error .syntaxError
      | some data => .ok data
  let displayed : State × Option JsError :=
    match parsed with
    | .error e => (s, some e)
    | .ok data =>
      match data.get "suggestions" with
      | .error e => (s, some e)
      | .ok suggestions => displaySuggestions suggestions s
  match displayed.2 with
  | some e => ⟨displayed.1, [.consoleError e]⟩
  | none => ⟨displayed.1, []⟩

/-- The `click` listener of a rendered item (lines 103-107). -/
def itemClickListener (it : Item) (s : State) : Outcome :=
  match s.searchInput with
  | none => ⟨s, [.uncaught .typeError]⟩
  | some _ =>
    match it.suggestion.get "text" with
    | .error e => ⟨s, [.uncaught e]⟩
    | .ok text =>
      match toInputValue text with
      | .error e => ⟨s, [.uncaught e]⟩
      | .ok value =>
        let s1 : State := { s with searchInput := some value }
        match hideSuggestions s1 with
        | .error e => ⟨s1, [.uncaught e]⟩
        | .ok s2 =>
          if s2.searchForm then ⟨s2, [.formSubmit]⟩
          else ⟨s2, [.uncaught .typeError]⟩

/-- The `click` listener of the document (lines 61-65); `targetInForm` is the
value of `searchForm.contains(e.target)`. -/
def onDocumentClick (targetInForm : Bool) (s : State) : Outcome :=
  if s.autocompleteActive then
    if s.searchForm then
      if !targetInForm then
        match hideSuggestions s with
        | .ok s1 => ⟨s1, []⟩
        | .error e => ⟨s, [.uncaught e]⟩
      else ⟨s, []⟩
    else ⟨s, [.uncaught .typeError]⟩
  else ⟨s, []⟩

/-- A click on the rendered item of index `i` (by the user, or by
`items[currentFocus].click()`): the item's listener runs, then the event
bubbles to the document's listener. An item removed by the first listener is
no longer contained in the form; an item still attached is contained in it
exactly when the box is. -/
def clickItem (i : Nat) (s : State) : Outcome :=
  match s.items[i]? with
  | none => ⟨s, []⟩
  | some it =>
    let o1 := itemClickListener it s
    let attached : Bool := i < o1.state.items.length
    let o2 := onDocumentClick (attached && s.boxInForm) o1.state
    ⟨o2.state, o1.effects ++ o2.effects⟩

/-- The `keydown` listener of the search input (lines 39-58). -/
def onKeydown (key : String) (s : State) : Outcome :=
  match s.searchInput, s.suggestionsBox with
  | some _, some box =>
    if key = "ArrowDown" then
      let r := addActive box.items (s.currentFocus + 1)
      ⟨{ s with suggestionsBox := some { box with items := r.1 }, currentFocus := r.2 },
        [.preventDefault]⟩
    else if key = "ArrowUp" then
      let r := addActive box.items (s.currentFocus - 1)
      ⟨{ s with suggestionsBox := some { box with items := r.1 }, currentFocus := r.2 },
        [.preventDefault]⟩
    else if key = "Enter" then
      if s.currentFocus > -1 ∧ s.currentFocus.toNat < box.items.length then
        let o := clickItem s.currentFocus.toNat s
        ⟨o.state, .preventDefault :: o.effects⟩
      else ⟨s, []⟩
    else if key = "Escape" then
      match hideSuggestions s with
      | .ok s1 => ⟨s1, []⟩
      | .error e => ⟨s, [.uncaught e]⟩
    else ⟨s, []⟩
  | _, _ => ⟨s, []⟩

/-- The `submit` listener of the search form (lines 140-145). -/
def onSubmit (s : State) : Outcome :=
  if s.searchForm then
    match hideSuggestions s with
    | .ok s1 => ⟨s1, []⟩
    | .error e => ⟨s, [.uncaught e]⟩
  else ⟨s, []⟩

/-! ## Event loop -/

/-- Events delivered to the controller. -/
inductive Event where
  /-- An `input` event at time `now` with the input's new value. -/
  | input (now : Nat) (value : String) : Event
  /-- The timer of id `id` fires. -/
  | timer (id : Nat) : Event
  /-- The request of a lookup ends. -/
  | fetchResult (r : FetchResult) : Event
  /-- A `keydown` event on the search input with `e.key = key`. -/
  | keydown (key : String) : Event
  /-- A click outside the suggestion items; `targetInForm` tells whether the
  target is contained in the search form. -/
  | documentClick (targetInForm : Bool) : Event
  /-- A click on the rendered item of index `i`. -/
  | itemClick (i : Nat) : Event
  /-- A `submit` event on the search form. -/
  | submit : Event

/-- The listeners run by one event. -/
def step (ev : Event) (s : State) : Outcome :=
  match ev with
  | .input now value => onInput now value s
  | .timer id => onTimer id s
  | .fetchResult r => onFetchResult r s
  | .keydown key => onKeydown key s
  | .documentClick targetInForm => onDocumentClick targetInForm s
  | .itemClick i => clickItem i s
  | .submit => onSubmit s

/-- A finite sequence of events, effects accumulated in order. -/
def run : List Event → State → Outcome
  | [], s => ⟨s, []⟩
  | ev :: evs, s =>
    let o := step ev s
    let r := run evs o.state
    ⟨r.state, o.effects ++ r.effects⟩

/-- The timers due by `now` fire before an event at time `now`. -/
def fireDue (now : Nat) (s : State) : Outcome :=
  fireTimers (fun t => t.due ≤ now) s

/-- Every pending timer fires: nothing cancels them any more. -/
def fireAll (s : State) : Outcome :=
  fireTimers (fun _ => true) s

/-- Input events given by their times and values, each preceded by the
callbacks of the timers due by then. -/
def runInputs : List (Nat × String) → State → Outcome
  | [], s => ⟨s, []⟩
  | (t, v) :: rest, s =>
    let o1 := fireDue t s
    let o2 := onInput t v o1.state
    let r := runInputs rest o2.state
    ⟨r.state, o1.effects ++ o2.effects ++ r.effects⟩

/-- A burst of input events after which no other input event follows: the
timers still pending eventually fire. -/
def typingBurst (events : List (Nat × String)) (s : State) : Outcome :=
  let o := runInputs events s
  let f := fireAll o.state
  ⟨f.state, o.effects ++ f.effects⟩

/-- The lookups among a list of effects. -/
def lookups : List Effect → List String
  | [] => []
  | .lookup q :: rest => q :: lookups rest
  | _ :: rest => lookups rest

/-- The panel is hidden: no `show` class, no rendered item, no focus. -/
def Hidden (s : State) : Prop :=
  s.shown = false ∧ s.items = [] ∧ s.currentFocus = -1

/-- Number of rendered items that carry the `active` class. -/
def activeCount (items : List Item) : Nat :=
  items.countP fun it => it.active

/-- What an arrow key guarantees, whatever the state before it. -/
structure ArrowPost (s t : State) : Prop where
  active : t.autocompleteActive = true
  length : t.items.length = s.items.length
  atFocus : ∀ (i : Nat) (it : Item),
    t.items[i]? = some it → it.active = true → (i : Int) = t.currentFocus
  countLe : activeCount t.items ≤ 1
  exactlyOne : 1 ≤ s.items.length →
    0 ≤ t.currentFocus ∧ t.currentFocus < t.items.length ∧ activeCount t.items = 1 ∧
      ∃ it, t.items[t.currentFocus.toNat]? = some it ∧ it.active = true

/-- A well-formed suggestion record `{text, type}`. -/
def suggestionRecord (text type : String) : JsVal :=
  .obj [("text", .str text), ("type", .str type)]

/-- A response body `{"suggestions": [...]}`. -/
def suggestionsBody (suggestions : JsVal) : JsVal :=
  .obj [("suggestions", suggestions)]

/-- A page with the input, the container and the form (the container inside
the form), right after load. -/
def fullPage : State := initialState (some "") true true true

/-- Three sample suggestions. -/
def sampleSuggestions : JsVal :=
  .arr [suggestionRecord "abc" "tag", suggestionRecord "abd" "item",
    suggestionRecord "abe" "tag"]

/-- The full page with one suggestion whose text has a line break rendered and
focused. -/
def lineBreakRendered : State :=
  { (displaySuggestions (some (.arr [suggestionRecord "a\nb" "tag"])) fullPage).1 with
    currentFocus := 0 }

/-- The full page with the three sample suggestions freshly rendered. -/
def sampleRendered : State :=
  (displaySuggestions (some sampleSuggestions) fullPage).1

/-- Range of `currentFocus` kept by every listener: `-1 ≤ currentFocus ≤ max (n-1) 0`
for `n` rendered items. -/
def FocusInRange (s : State) : Prop :=
  -1 ≤ s.currentFocus ∧ s.currentFocus ≤ max ((s.items.length : Int) - 1) 0

/-- Each input event follows the previous one by less than 300 ms. -/
def WithinDebounce : List (Nat × String) → Prop
  | [] => True
  | [_] => True
  | a :: b :: rest => a.1 ≤ b.1 ∧ b.1 < a.1 + 300 ∧ WithinDebounce (b :: rest)

instance WithinDebounce.decidable : (l : List (Nat × String)) → Decidable (WithinDebounce l)
  | [] => isTrue trivial
  | [_] => isTrue trivial
  | a :: b :: rest =>
    have := WithinDebounce.decidable (b :: rest)
    inferInstanceAs (Decidable (a.1 ≤ b.1 ∧ b.1 < a.1 + 300 ∧ WithinDebounce (b :: rest)))

/-- The timers an input event at time `last.1` with value `last.2` leaves
pending when it cancelled all the others: none when the trimmed value is
empty, else one for that trimmed value. -/
def timersAfter (id : Nat) (last : Nat × String) : List Timer :=
  if (jsTrim last.2).length < 1 then [] else [⟨id, last.1 + 300, jsTrim last.2⟩]

/-- Every pending timer is the one the variable `debounceTimer` refers to. -/
def TimersOwned (s : State) : Prop :=
  ∀ t ∈ s.timers, s.debounceTimer = some t.id

/-- Every item of the box was produced by the render loop: its suggestion
passes `renderItem`. -/
def ItemsRendered (s : State) : Prop :=
  ∀ x ∈ s.items.map (fun it => it.suggestion), ∃ r, renderItem x = .ok r

/-- The elements every registered listener relies on are present: the submit
listener (registered when the form exists) needs the container, and the
listeners of the autocomplete (registered when input and container exist) need
the form. -/
def ElementsSuffice (s : State) : Prop :=
  (s.searchForm = true → s.suggestionsBox.isSome = true) ∧
  (s.autocompleteActive = true → s.searchForm = true)

/-- The same page elements are present in both states. -/
def SamePage (s t : State) : Prop :=
  t.searchInput.isSome = s.searchInput.isSome ∧
  t.suggestionsBox.isSome = s.suggestionsBox.isSome ∧
  t.searchForm = s.searchForm

/-- No exception was left uncaught. -/
def noUncaught (effects : List Effect) : Bool :=
  effects.all fun e =>
    match e with
    | .uncaught _ => false
    | _ => true

/-- The page has the input, the container and the form, and the items of the
box are rendered items. -/
def AllPresent (s : State) : Prop :=
  s.autocompleteActive = true ∧ s.searchForm = true ∧ ItemsRendered s

/-- The listener left the timers and the variable `debounceTimer` alone. -/
def SameTimers (s t : State) : Prop :=
  t.timers = s.timers ∧ t.debounceTimer = s.debounceTimer

/-! ## Lemmas on the highlight -/

theorem removeActive_length (items : List Item) :
    (removeActive items).length = items.length := by
  simp [removeActive]

theorem removeActive_inactive (items : List Item) (i : Nat) (it : Item)
    (h : (removeActive items)[i]? = some it) : it.active = false := by
  simp only [removeActive, List.getElem?_map, Option.map_eq_some'] at h
  obtain ⟨a, _, rfl⟩ := h
  rfl

theorem removeActive_count (items : List Item) :
    activeCount (removeActive items) = 0 := by
  simp [activeCount, removeActive, List.countP_eq_zero]

theorem modify_active_count (items : List Item) (k : Nat)
    (h0 : activeCount items = 0) (hk : k < items.length) :
    activeCount (items.modify (fun it => { it with active := true }) k) = 1 := by
  induction items generalizing k with
  | nil => simp at hk
  | cons a rest ih =>
    have hsplit : activeCount (a :: rest) =
        activeCount rest + if a.active = true then 1 else 0 := by
      simp [activeCount, List.countP_cons]
    have hrest : activeCount rest = 0 := by omega
    cases k with
    | zero =>
      have : activeCount ({ a with active := true } :: rest) = activeCount rest + 1 := by
        simp [activeCount, List.countP_cons]
      rw [List.modify_zero_cons, this, hrest]
    | succ k =>
      have ha : ¬ a.active = true := by
        intro hact
        rw [hsplit, if_pos hact] at h0
        omega
      have hk2 : k < rest.length := by simpa using hk
      have hcons : ∀ l : List Item, activeCount (a :: l) = activeCount l := by
        intro l
        simp [activeCount, List.countP_cons, ha]
      rw [List.modify_succ_cons, hcons, ih k hrest hk2]

theorem wrapFocus_range (focus : Int) (n : Nat) (hn : 1 ≤ n) :
    0 ≤ wrapFocus focus n ∧ wrapFocus focus n < n := by
  simp only [wrapFocus]
  split_ifs <;> omega

theorem wrapFocus_bounds (focus : Int) (n : Nat) :
    -1 ≤ wrapFocus focus n ∧ wrapFocus focus n ≤ max ((n : Int) - 1) 0 := by
  simp only [wrapFocus]
  split_ifs <;> omega

theorem addActive_length (items : List Item) (focus : Int) :
    (addActive items focus).1.length = items.length := by
  simp only [addActive, setActiveAt]
  split_ifs <;> simp [removeActive_length]

theorem addActive_focus (items : List Item) (focus : Int) :
    (addActive items focus).2 = wrapFocus focus items.length := rfl

/-- After `addActive`, an item that is active sits at the new focus. -/
theorem addActive_active_at (items : List Item) (focus : Int) (i : Nat) (it : Item)
    (h : (addActive items focus).1[i]? = some it) (hact : it.active = true) :
    (i : Int) = (addActive items focus).2 := by
  simp only [addActive, setActiveAt] at h ⊢
  split_ifs at h with hr
  · by_cases hi : (wrapFocus focus items.length).toNat = i
    · omega
    · rw [List.getElem?_modify_ne _ _ hi] at h
      have := removeActive_inactive _ _ _ h
      simp [this] at hact
  · have := removeActive_inactive _ _ _ h
    simp [this] at hact

/-- After `addActive` on a non-empty list, the item at the new focus is active
and it is the only one. -/
theorem addActive_exactly_one (items : List Item) (focus : Int)
    (hn : 1 ≤ items.length) :
    activeCount (addActive items focus).1 = 1 ∧
    ∃ it, (addActive items focus).1[(addActive items focus).2.toNat]? = some it ∧
      it.active = true := by
  have hr := wrapFocus_range focus items.length hn
  have hlt : (wrapFocus focus items.length).toNat < (removeActive items).length := by
    rw [removeActive_length]; omega
  simp only [addActive, setActiveAt]
  rw [if_pos ⟨hr.1, hlt⟩]
  refine ⟨modify_active_count _ _ (removeActive_count items) hlt, ?_⟩
  rw [List.getElem?_modify_eq]
  obtain ⟨a, ha⟩ : ∃ a, (removeActive items)[(wrapFocus focus items.length).toNat]? = some a :=
    ⟨_, List.getElem?_eq_getElem hlt⟩
  exact ⟨_, by rw [ha]; rfl, rfl⟩

theorem addActive_count_le (items : List Item) (focus : Int) :
    activeCount (addActive items focus).1 ≤ 1 := by
  by_cases hn : 1 ≤ items.length
  · exact (addActive_exactly_one items focus hn).1.le
  · have : items = [] := by
      cases items with
      | nil => rfl
      | cons a l => simp at hn
    subst this
    simp [addActive, setActiveAt, removeActive, activeCount]

/-! ## Lemmas on the listeners -/

theorem active_iff (s : State) :
    s.autocompleteActive = true ↔
      ∃ v box, s.searchInput = some v ∧ s.suggestionsBox = some box := by
  unfold State.autocompleteActive
  cases s.searchInput <;> cases s.suggestionsBox <;> simp

theorem items_of_box (s : State) (box : Box) (hb : s.suggestionsBox = some box) :
    s.items = box.items := by
  simp [State.items, hb]

theorem onKeydown_arrowDown (s : State) (v : String) (box : Box)
    (hi : s.searchInput = some v) (hb : s.suggestionsBox = some box) :
    onKeydown "ArrowDown" s =
      ⟨{ s with
          suggestionsBox :=
            some { box with items := (addActive box.items (s.currentFocus + 1)).1 },
          currentFocus := (addActive box.items (s.currentFocus + 1)).2 },
        [.preventDefault]⟩ := by
  simp [onKeydown, hi, hb]

theorem onKeydown_arrowUp (s : State) (v : String) (box : Box)
    (hi : s.searchInput = some v) (hb : s.suggestionsBox = some box) :
    onKeydown "ArrowUp" s =
      ⟨{ s with
          suggestionsBox :=
            some { box with items := (addActive box.items (s.currentFocus - 1)).1 },
          currentFocus := (addActive box.items (s.currentFocus - 1)).2 },
        [.preventDefault]⟩ := by
  simp [onKeydown, hi, hb]

theorem arrow_post (s : State) (key : String) (ha : s.autocompleteActive = true)
    (hk : key = "ArrowDown" ∨ key = "ArrowUp") :
    ArrowPost s (onKeydown key s).state := by
  obtain ⟨v, box, hi, hb⟩ := (active_iff s).1 ha
  have hitems := items_of_box s box hb
  have key_fact : ∃ f, (onKeydown key s).state =
      { s with
        suggestionsBox := some { box with items := (addActive box.items f).1 },
        currentFocus := (addActive box.items f).2 } := by
    rcases hk with rfl | rfl
    · exact ⟨_, by rw [onKeydown_arrowDown s v box hi hb]⟩
    · exact ⟨_, by rw [onKeydown_arrowUp s v box hi hb]⟩
  obtain ⟨f, hf⟩ := key_fact
  rw [hf]
  refine ⟨?_, ?_, ?_, ?_, ?_⟩
  · simp [State.autocompleteActive, hi]
  · simp [State.items, addActive_length, hb]
  · intro i it h hact
    exact addActive_active_at box.items f i it (by simpa [State.items] using h) hact
  · simpa [State.items] using addActive_count_le box.items f
  · intro hn
    rw [hitems] at hn
    have hr := wrapFocus_range f box.items.length hn
    have h1 := addActive_exactly_one box.items f hn
    rw [addActive_focus] at h1
    simp only [State.items, addActive_focus, addActive_length]
    exact ⟨hr.1, hr.2, h1.1, h1.2⟩

/-! ## Wraparound navigation -/

/-- C4: on a rendered list of `n ≥ 1` items with `-1 ≤ currentFocus ≤ n-1`, an
ArrowDown keydown sets `currentFocus` to `(currentFocus+1) mod n` and an ArrowUp
keydown sets it to `currentFocus-1` when `currentFocus ≥ 1` and to `n-1`
otherwise; so ArrowUp from `-1` lands on `n-1` and ArrowDown from `n-1` on `0`. -/
theorem wraparound_navigation (s : State) (ha : s.autocompleteActive = true)
    (_hn : 1 ≤ s.items.length) (hlo : -1 ≤ s.currentFocus)
    (hhi : s.currentFocus ≤ (s.items.length : Int) - 1) :
    (onKeydown "ArrowDown" s).state.currentFocus =
        (s.currentFocus + 1) % (s.items.length : Int) ∧
    (onKeydown "ArrowUp" s).state.currentFocus =
        (if 1 ≤ s.currentFocus then s.currentFocus - 1 else (s.items.length : Int) - 1) ∧
    (s.currentFocus = -1 →
      (onKeydown "ArrowUp" s).state.currentFocus = (s.items.length : Int) - 1) ∧
    (s.currentFocus = (s.items.length : Int) - 1 →
      (onKeydown "ArrowDown" s).state.currentFocus = 0) := by
  obtain ⟨v, box, hi, hb⟩ := (active_iff s).1 ha
  have hitems := items_of_box s box hb
  rw [onKeydown_arrowDown s v box hi hb, onKeydown_arrowUp s v box hi hb]
  simp only [addActive_focus, wrapFocus, ← hitems]
  have hdown : (s.currentFocus + 1) % (s.items.length : Int) =
      if s.currentFocus + 1 ≥ (s.items.length : Int) then 0 else s.currentFocus + 1 := by
    split_ifs with h
    · have : s.currentFocus + 1 = (s.items.length : Int) := by omega
      rw [this]
      exact Int.emod_self
    · exact Int.emod_eq_of_lt (by omega) (by omega)
  rw [hdown]
  refine ⟨?_, ?_, ?_, ?_⟩
  · split_ifs <;> omega
  · split_ifs <;> omega
  · intro h
    split_ifs <;> omega
  · intro h
    split_ifs <;> omega

theorem wraparound_navigation_witness :
    sampleRendered.autocompleteActive = true ∧ 1 ≤ sampleRendered.items.length ∧
    sampleRendered.currentFocus = -1 ∧
    (onKeydown "ArrowDown" sampleRendered).state.currentFocus = 0 ∧
    (onKeydown "ArrowUp" sampleRendered).state.currentFocus = 2 := by
  have h := wraparound_navigation sampleRendered
    (by decide) (by decide) (by decide) (by decide)
  exact ⟨by decide, by decide, by decide, h.1, h.2.2.1 (by decide)⟩

/-! ## Single highlight -/

theorem run_cons (ev : Event) (evs : List Event) (s : State) :
    (run (ev :: evs) s).state = (run evs (step ev s).state).state := rfl

theorem run_nil (s : State) : (run [] s).state = s := rfl

theorem arrows_run (keys : List String) (s : State) (ha : s.autocompleteActive = true)
    (hkeys : ∀ k ∈ keys, k = "ArrowDown" ∨ k = "ArrowUp") (hne : keys ≠ []) :
    ArrowPost s (run (keys.map Event.keydown) s).state := by
  induction keys generalizing s with
  | nil => exact absurd rfl hne
  | cons k rest ih =>
    have hk := hkeys k (List.mem_cons_self _ _)
    have h1 := arrow_post s k ha hk
    rw [List.map_cons, run_cons]
    change ArrowPost s (run (rest.map Event.keydown) (onKeydown k s).state).state
    cases rest with
    | nil => exact h1
    | cons k2 rest2 =>
      have h2 := ih (onKeydown k s).state h1.active
        (fun k' hk' => hkeys k' (List.mem_cons_of_mem _ hk')) (by simp)
      exact ⟨h2.active, h2.length.trans h1.length, h2.atFocus, h2.countLe,
        fun hn => h2.exactlyOne (by rw [h1.length]; exact hn)⟩

theorem activeCount_of_inactive (items : List Item)
    (h : ∀ it ∈ items, it.active = false) : activeCount items = 0 := by
  simp only [activeCount, List.countP_eq_zero]
  intro it hit
  simp [h it hit]

/-- C3: from a freshly rendered list (no item active, `currentFocus = -1`) and
after any finite sequence of ArrowDown / ArrowUp keydown events, the same items
are rendered, at most one of them carries the `active` class, and an item that
carries it sits at index `currentFocus`; when the list has at least one item
and at least one arrow key was pressed, exactly one item is active and it is
the one at index `currentFocus`. -/
theorem single_highlight (s : State) (keys : List String)
    (ha : s.autocompleteActive = true)
    (hfresh : ∀ it ∈ s.items, it.active = false) (_hfocus : s.currentFocus = -1)
    (hkeys : ∀ k ∈ keys, k = "ArrowDown" ∨ k = "ArrowUp") :
    (run (keys.map Event.keydown) s).state.items.length = s.items.length ∧
    activeCount (run (keys.map Event.keydown) s).state.items ≤ 1 ∧
    (∀ (i : Nat) (it : Item),
      (run (keys.map Event.keydown) s).state.items[i]? = some it → it.active = true →
        (i : Int) = (run (keys.map Event.keydown) s).state.currentFocus) ∧
    (1 ≤ s.items.length → keys ≠ [] →
      activeCount (run (keys.map Event.keydown) s).state.items = 1 ∧
      0 ≤ (run (keys.map Event.keydown) s).state.currentFocus ∧
      ∃ it, (run (keys.map Event.keydown) s).state.items[
          (run (keys.map Event.keydown) s).state.currentFocus.toNat]? = some it ∧
        it.active = true) := by
  by_cases hne : keys = []
  · subst hne
    simp only [List.map_nil, run_nil]
    refine ⟨trivial, ?_, ?_, fun _ h => absurd rfl h⟩
    · rw [activeCount_of_inactive s.items hfresh]
      exact Nat.zero_le 1
    · intro i it h hact
      have := hfresh it (List.getElem?_mem h)
      rw [this] at hact
      exact absurd hact (by decide)
  · have h := arrows_run keys s ha hkeys hne
    refine ⟨h.length, h.countLe, h.atFocus, fun hn _ => ?_⟩
    have h1 := h.exactlyOne hn
    exact ⟨h1.2.2.1, h1.1, h1.2.2.2⟩

theorem single_highlight_witness :
    sampleRendered.autocompleteActive = true ∧
    activeCount (run (["ArrowDown", "ArrowUp", "ArrowUp"].map Event.keydown)
      sampleRendered).state.items = 1 := by
  have h := single_highlight sampleRendered ["ArrowDown", "ArrowUp", "ArrowUp"]
    (by decide) (by decide) (by decide) (by decide)
  exact ⟨by decide, (h.2.2.2 (by decide) (by decide)).1⟩

/-! ## Range of the focus index -/

theorem onInput_focusInRange (now : Nat) (value : String) (s : State)
    (h : FocusInRange s) : FocusInRange (onInput now value s).state := by
  unfold onInput
  split
  · rename_i v box hi hb
    simp only [hideSuggestions, hb]
    split_ifs
    · simp [FocusInRange, State.items]
    · simpa [FocusInRange, State.items, hb] using h
  · rename_i v hi hb
    simpa [FocusInRange, State.items, hb] using h
  · exact h

theorem onTimer_focusInRange (id : Nat) (s : State) (h : FocusInRange s) :
    FocusInRange (onTimer id s).state := by
  simpa [onTimer, fireTimers, FocusInRange, State.items] using h

theorem displaySuggestions_focus (suggestions : Option JsVal) (s : State)
    (h : FocusInRange s) : FocusInRange (displaySuggestions suggestions s).1 := by
  unfold displaySuggestions
  split
  · exact h
  · rename_i box hb
    simp only [hideSuggestions]
    split_ifs
    · simp [FocusInRange, State.items]
    · split
      · split <;> simp [FocusInRange, State.items]
      · simp [FocusInRange, State.items]

theorem onFetchResult_focusInRange (r : FetchResult) (s : State) (h : FocusInRange s) :
    FocusInRange (onFetchResult r s).state := by
  have key : ∀ d : State × Option JsError, FocusInRange d.1 →
      FocusInRange (match d.2 with
        | some e => (⟨d.1, [.consoleError e]⟩ : Outcome)
        | none => ⟨d.1, []⟩).state := by
    intro d hd
    split <;> exact hd
  unfold onFetchResult
  apply key
  cases r with
  | failed => exact h
  | received resp =>
    cases hbody : resp.body with
    | none => simpa [hbody] using h
    | some data =>
      simp only [hbody]
      cases hget : data.get "suggestions" with
      | error e => exact h
      | ok suggestions => exact displaySuggestions_focus suggestions s h

theorem itemClickListener_focusInRange (it : Item) (s : State) (h : FocusInRange s) :
    FocusInRange (itemClickListener it s).state := by
  unfold itemClickListener
  split
  · exact h
  · split
    · exact h
    · split
      · exact h
      · cases hb : s.suggestionsBox with
        | none => simpa [hideSuggestions, hb, FocusInRange, State.items] using h
        | some box =>
          simp only [hideSuggestions, hb]
          split_ifs <;> simp [FocusInRange, State.items]

theorem onDocumentClick_focusInRange (targetInForm : Bool) (s : State)
    (h : FocusInRange s) : FocusInRange (onDocumentClick targetInForm s).state := by
  unfold onDocumentClick
  split_ifs
  · cases hb : s.suggestionsBox with
    | none => simpa [hideSuggestions, hb] using h
    | some box => simp [hideSuggestions, hb, FocusInRange, State.items]
  · exact h
  · exact h
  · exact h

theorem clickItem_focusInRange (i : Nat) (s : State) (h : FocusInRange s) :
    FocusInRange (clickItem i s).state := by
  unfold clickItem
  split
  · exact h
  · exact onDocumentClick_focusInRange _ _ (itemClickListener_focusInRange _ s h)

theorem onSubmit_focusInRange (s : State) (h : FocusInRange s) :
    FocusInRange (onSubmit s).state := by
  unfold onSubmit
  split_ifs
  · cases hb : s.suggestionsBox with
    | none => simpa [hideSuggestions, hb] using h
    | some box => simp [hideSuggestions, hb, FocusInRange, State.items]
  · exact h

theorem onKeydown_focusInRange (key : String) (s : State) (h : FocusInRange s) :
    FocusInRange (onKeydown key s).state := by
  unfold onKeydown
  split
  · rename_i v box hi hb
    split_ifs
    · have := wrapFocus_bounds (s.currentFocus + 1) box.items.length
      simpa [FocusInRange, State.items, addActive_focus, addActive_length] using this
    · have := wrapFocus_bounds (s.currentFocus - 1) box.items.length
      simpa [FocusInRange, State.items, addActive_focus, addActive_length] using this
    · exact clickItem_focusInRange _ s h
    · exact h
    · simp [hideSuggestions, hb, FocusInRange, State.items]
    · exact h
  · exact h

theorem step_focusInRange (ev : Event) (s : State) (h : FocusInRange s) :
    FocusInRange (step ev s).state := by
  cases ev with
  | input now value => exact onInput_focusInRange now value s h
  | timer id => exact onTimer_focusInRange id s h
  | fetchResult r => exact onFetchResult_focusInRange r s h
  | keydown key => exact onKeydown_focusInRange key s h
  | documentClick t => exact onDocumentClick_focusInRange t s h
  | itemClick i => exact clickItem_focusInRange i s h
  | submit => exact onSubmit_focusInRange s h

theorem run_focusInRange (evs : List Event) (s : State) (h : FocusInRange s) :
    FocusInRange (run evs s).state := by
  induction evs generalizing s with
  | nil => exact h
  | cons ev evs ih => exact ih _ (step_focusInRange ev s h)

theorem initialState_focusInRange (input : Option String) (hasBox hasForm boxInForm : Bool) :
    FocusInRange (initialState input hasBox hasForm boxInForm) := by
  cases hasBox <;> simp [FocusInRange, initialState, State.items]

theorem hideSuggestions_resets (s s1 : State) (h : hideSuggestions s = .ok s1) :
    s1.currentFocus = -1 ∧ s1.items = [] ∧ s1.shown = false := by
  unfold hideSuggestions at h
  split at h
  · exact absurd h (by simp)
  · injection h with h
    subst h
    simp [State.items, State.shown]

theorem displaySuggestions_resets (suggestions : Option JsVal) (s : State)
    (hb : s.suggestionsBox.isSome = true) :
    (displaySuggestions suggestions s).1.currentFocus = -1 := by
  unfold displaySuggestions
  split
  · rename_i hnone
    rw [hnone] at hb
    exact absurd hb (by simp)
  · simp only [hideSuggestions]
    split_ifs
    · rfl
    · split
      · split <;> rfl
      · rfl

/-- C2 (as the code has it): in every state reachable from the initial state
of any page by any finite sequence of controller events, `currentFocus`
satisfies `-1 ≤ currentFocus ≤ max (n-1) 0` for `n` rendered items; so
`currentFocus ≤ n-1` whenever at least one item is rendered, and with no item
rendered `currentFocus` is `-1` or `0`. Moreover `currentFocus = -1` in the
state left by every call of `hideSuggestions` that does not throw (with no item
and no `show` class) and by every call of `displaySuggestions` on a page with
the container, hence after every lookup response whose body parsed to a value
other than `null`. -/
theorem focus_index_range (input : Option String) (hasBox hasForm boxInForm : Bool)
    (evs : List Event) :
    -1 ≤ (run evs (initialState input hasBox hasForm boxInForm)).state.currentFocus ∧
    (run evs (initialState input hasBox hasForm boxInForm)).state.currentFocus ≤
      max (((run evs (initialState input hasBox hasForm boxInForm)).state.items.length : Int) - 1) 0 ∧
    (1 ≤ (run evs (initialState input hasBox hasForm boxInForm)).state.items.length →
      (run evs (initialState input hasBox hasForm boxInForm)).state.currentFocus ≤
        ((run evs (initialState input hasBox hasForm boxInForm)).state.items.length : Int) - 1) ∧
    ((run evs (initialState input hasBox hasForm boxInForm)).state.items.length = 0 →
      (run evs (initialState input hasBox hasForm boxInForm)).state.currentFocus = -1 ∨
      (run evs (initialState input hasBox hasForm boxInForm)).state.currentFocus = 0) ∧
    (∀ s s1 : State, hideSuggestions s = .ok s1 →
      s1.currentFocus = -1 ∧ s1.items = [] ∧ s1.shown = false) ∧
    (∀ (s : State) (suggestions : Option JsVal), s.suggestionsBox.isSome = true →
      (displaySuggestions suggestions s).1.currentFocus = -1) ∧
    (∀ (s : State) (status : Nat) (data : JsVal), s.suggestionsBox.isSome = true →
      data ≠ .null →
      (onFetchResult (.received ⟨status, some data⟩) s).state.currentFocus = -1) := by
  have h := run_focusInRange evs _ (initialState_focusInRange input hasBox hasForm boxInForm)
  obtain ⟨h1, h2⟩ := h
  refine ⟨h1, h2, fun hn => by omega, fun hn => by omega, hideSuggestions_resets,
    fun s suggestions hb => displaySuggestions_resets suggestions s hb, ?_⟩
  intro s status data hb hdata
  obtain ⟨suggestions, hget⟩ : ∃ suggestions, data.get "suggestions" = .ok suggestions := by
    cases data with
    | null => exact absurd rfl hdata
    | obj props => exact ⟨_, rfl⟩
    | bool b => exact ⟨_, rfl⟩
    | num n => exact ⟨_, rfl⟩
    | str t => exact ⟨_, rfl⟩
    | arr xs => exact ⟨_, rfl⟩
  have hd := displaySuggestions_resets suggestions s hb
  simp only [onFetchResult, hget]
  split <;> exact hd

/-- C2, counterexample: on the full page right after load, one ArrowDown keydown
leaves `currentFocus = 0` while the panel is hidden and no item is rendered, so
`currentFocus ≤ n-1` fails and `currentFocus` is not `-1` on a hidden panel. -/
theorem focus_index_range_counterexample :
    (run [.keydown "ArrowDown"] fullPage).state.currentFocus = 0 ∧
    (run [.keydown "ArrowDown"] fullPage).state.items.length = 0 ∧
    (run [.keydown "ArrowDown"] fullPage).state.shown = false ∧
    ¬ ((run [.keydown "ArrowDown"] fullPage).state.currentFocus ≤
        ((run [.keydown "ArrowDown"] fullPage).state.items.length : Int) - 1) := by
  decide

/-! ## Debounce -/

theorem lookups_append (a b : List Effect) : lookups (a ++ b) = lookups a ++ lookups b := by
  induction a with
  | nil => rfl
  | cons e rest ih => cases e <;> simp [lookups, ih]

/-- Cancelling the timer `debounceTimer` refers to leaves no timer pending
when every pending timer is that one. -/
theorem clearTimeout_owned (s : State) (ho : TimersOwned s) :
    clearTimeout s.debounceTimer s.timers = [] := by
  unfold clearTimeout
  cases hd : s.debounceTimer with
  | none =>
    cases ht : s.timers with
    | nil => rfl
    | cons t rest =>
      have := ho t (by rw [ht]; exact List.mem_cons_self _ _)
      rw [hd] at this
      exact absurd this (by simp)
  | some i =>
    simp only [List.filter_eq_nil_iff]
    intro t ht
    have := ho t ht
    rw [hd] at this
    injection this with this
    simp [this]

/-- The input listener on an active page whose pending timers are owned: it
has no effect of its own and leaves pending only the timer it set. -/
theorem onInput_active (now : Nat) (value : String) (s : State)
    (ha : s.autocompleteActive = true) (ho : TimersOwned s) :
    (onInput now value s).state.autocompleteActive = true ∧
    lookups (onInput now value s).effects = [] ∧
    (onInput now value s).state.timers = timersAfter s.nextTimerId (now, value) ∧
    TimersOwned (onInput now value s).state := by
  obtain ⟨v, box, hi, hb⟩ := (active_iff s).1 ha
  have hclear := clearTimeout_owned s ho
  simp only [onInput, hi, hb, hideSuggestions, timersAfter, hclear]
  split_ifs <;> simp [State.autocompleteActive, lookups, TimersOwned]

theorem fireTimers_none (fires : Timer → Bool) (s : State)
    (h : ∀ t ∈ s.timers, fires t = false) : fireTimers fires s = ⟨s, []⟩ := by
  have h1 : s.timers.filter (fun t => !fires t) = s.timers := by
    rw [List.filter_eq_self]
    intro t ht
    simp [h t ht]
  have h2 : s.timers.filter fires = [] := by
    rw [List.filter_eq_nil_iff]
    intro t ht
    simp [h t ht]
  simp only [fireTimers, h1, h2, List.map_nil]

theorem fireDue_not_due (now : Nat) (s : State)
    (h : ∀ t ∈ s.timers, now < t.due) : fireDue now s = ⟨s, []⟩ := by
  apply fireTimers_none
  intro t ht
  have := h t ht
  simp only [decide_eq_false_iff_not]
  omega

theorem timersAfter_not_due (id : Nat) (a b : Nat × String) (h : b.1 < a.1 + 300) :
    ∀ t ∈ timersAfter id a, b.1 < t.due := by
  intro t ht
  unfold timersAfter at ht
  split_ifs at ht
  · simp at ht
  · simp only [List.mem_singleton] at ht
    rw [ht]
    exact h

/-- A burst of input events within the debounce delay issues no lookup while
it lasts and leaves pending only the timer of its last event. -/
theorem runInputs_burst (e : Nat × String) (rest : List (Nat × String)) (s : State)
    (ha : s.autocompleteActive = true) (ho : TimersOwned s)
    (hdue : ∀ t ∈ s.timers, e.1 < t.due)
    (hw : WithinDebounce (e :: rest)) :
    lookups (runInputs (e :: rest) s).effects = [] ∧
    ∃ id, (runInputs (e :: rest) s).state.timers =
      timersAfter id ((e :: rest).getLast (List.cons_ne_nil _ _)) := by
  induction rest generalizing e s with
  | nil =>
    obtain ⟨t, v⟩ := e
    have h1 := onInput_active t v s ha ho
    simp only [runInputs, fireDue_not_due t s hdue, List.getLast_singleton]
    exact ⟨by simp [lookups_append, h1.2.1, lookups], _, h1.2.2.1⟩
  | cons e2 rest ih =>
    obtain ⟨t, v⟩ := e
    have h1 := onInput_active t v s ha ho
    have hw2 : WithinDebounce (e2 :: rest) := hw.2.2
    have hdue2 : ∀ tm ∈ (onInput t v s).state.timers, e2.1 < tm.due := by
      rw [h1.2.2.1]
      exact timersAfter_not_due _ (t, v) e2 hw.2.1
    have h2 := ih e2 (onInput t v s).state h1.1 h1.2.2.2 hdue2 hw2
    rw [List.getLast_cons (List.cons_ne_nil _ _)]
    have hrun : runInputs ((t, v) :: e2 :: rest) s =
        ⟨(runInputs (e2 :: rest) (onInput t v s).state).state,
          [] ++ (onInput t v s).effects ++
            (runInputs (e2 :: rest) (onInput t v s).state).effects⟩ := by
      rw [runInputs, fireDue_not_due t s hdue]
    rw [hrun]
    exact ⟨by simp [lookups_append, h1.2.1, h2.1], h2.2⟩

/-- C1 (as the code has it): for every non-empty sequence of input events in
which each event follows the previous one by less than 300 ms, the timers
pending before it being the one `debounceTimer` refers to and not due by the
first event, and no input event following, the lookups issued are: exactly one,
with the trimmed value of the last event as its query, when that trimmed value
is not empty; none when it is empty. -/
theorem debounce_single_lookup (events : List (Nat × String)) (s : State)
    (ha : s.autocompleteActive = true) (hne : events ≠ [])
    (ho : TimersOwned s)
    (htimer : ∀ t ∈ s.timers, (events.head hne).1 < t.due)
    (hw : WithinDebounce events) :
    lookups (typingBurst events s).effects =
      if (jsTrim (events.getLast hne).2).length < 1 then []
      else [jsTrim (events.getLast hne).2] := by
  cases events with
  | nil => exact absurd rfl hne
  | cons e rest =>
    obtain ⟨h1, id, h2⟩ := runInputs_burst e rest s ha ho htimer hw
    simp only [typingBurst, lookups_append, h1, fireAll, fireTimers, h2, timersAfter]
    split_ifs <;> simp [lookups, timerCallback]

theorem debounce_single_lookup_witness :
    fullPage.autocompleteActive = true ∧
    WithinDebounce [(0, "a"), (120, "ab"), (400, " abc ")] ∧
    lookups (typingBurst [(0, "a"), (120, "ab"), (400, " abc ")] fullPage).effects =
      ["abc"] := by
  have h := debounce_single_lookup [(0, "a"), (120, "ab"), (400, " abc ")] fullPage
    (by decide) (by decide) (by intro t ht; cases ht) (by intro t ht; cases ht) (by decide)
  exact ⟨by decide, by decide, by simpa using h⟩

/-! ### Pending timers of reachable states -/

theorem timersOwned_of_same (s t : State) (h : TimersOwned s) (hs : SameTimers s t) :
    TimersOwned t := by
  intro x hx
  rw [hs.1] at hx
  rw [hs.2]
  exact h x hx

theorem displaySuggestions_sameTimers (suggestions : Option JsVal) (s : State) :
    SameTimers s (displaySuggestions suggestions s).1 := by
  unfold displaySuggestions
  split
  · exact ⟨rfl, rfl⟩
  · simp only [hideSuggestions]
    split_ifs
    · exact ⟨rfl, rfl⟩
    · split
      · split <;> exact ⟨rfl, rfl⟩
      · exact ⟨rfl, rfl⟩

theorem onFetchResult_sameTimers (r : FetchResult) (s : State) :
    SameTimers s (onFetchResult r s).state := by
  have key : ∀ d : State × Option JsError, SameTimers s d.1 →
      SameTimers s (match d.2 with
        | some e => (⟨d.1, [.consoleError e]⟩ : Outcome)
        | none => ⟨d.1, []⟩).state := by
    intro d hd
    split <;> exact hd
  unfold onFetchResult
  apply key
  cases r with
  | failed => exact ⟨rfl, rfl⟩
  | received resp =>
    cases hbody : resp.body with
    | none =>
      simp only [hbody]
      exact ⟨rfl, rfl⟩
    | some data =>
      simp only [hbody]
      cases hget : data.get "suggestions" with
      | error e => exact ⟨rfl, rfl⟩
      | ok suggestions => exact displaySuggestions_sameTimers suggestions s

theorem itemClickListener_sameTimers (it : Item) (s : State) :
    SameTimers s (itemClickListener it s).state := by
  unfold itemClickListener
  split
  · exact ⟨rfl, rfl⟩
  · split
    · exact ⟨rfl, rfl⟩
    · split
      · exact ⟨rfl, rfl⟩
      · cases hb : s.suggestionsBox with
        | none =>
          simp only [hideSuggestions, hb]
          exact ⟨rfl, rfl⟩
        | some box =>
          simp only [hideSuggestions, hb]
          split_ifs <;> exact ⟨rfl, rfl⟩

theorem onDocumentClick_sameTimers (targetInForm : Bool) (s : State) :
    SameTimers s (onDocumentClick targetInForm s).state := by
  unfold onDocumentClick
  split_ifs
  · cases hb : s.suggestionsBox with
    | none =>
      simp only [hideSuggestions, hb]
      exact ⟨rfl, rfl⟩
    | some box =>
      simp only [hideSuggestions, hb]
      exact ⟨rfl, rfl⟩
  · exact ⟨rfl, rfl⟩
  · exact ⟨rfl, rfl⟩
  · exact ⟨rfl, rfl⟩

theorem clickItem_sameTimers (i : Nat) (s : State) :
    SameTimers s (clickItem i s).state := by
  unfold clickItem
  split
  · exact ⟨rfl, rfl⟩
  · rename_i it _
    have h1 := itemClickListener_sameTimers it s
    have h2 := onDocumentClick_sameTimers
      (decide (i < (itemClickListener it s).state.items.length) && s.boxInForm)
      (itemClickListener it s).state
    exact ⟨h2.1.trans h1.1, h2.2.trans h1.2⟩

theorem onSubmit_sameTimers (s : State) : SameTimers s (onSubmit s).state := by
  unfold onSubmit
  split_ifs
  · cases hb : s.suggestionsBox with
    | none =>
      simp only [hideSuggestions, hb]
      exact ⟨rfl, rfl⟩
    | some box =>
      simp only [hideSuggestions, hb]
      exact ⟨rfl, rfl⟩
  · exact ⟨rfl, rfl⟩

theorem onKeydown_sameTimers (key : String) (s : State) :
    SameTimers s (onKeydown key s).state := by
  unfold onKeydown
  split
  · rename_i v box hi hb
    split_ifs
    · exact ⟨rfl, rfl⟩
    · exact ⟨rfl, rfl⟩
    · exact clickItem_sameTimers _ s
    · exact ⟨rfl, rfl⟩
    · simp only [hideSuggestions, hb]
      exact ⟨rfl, rfl⟩
    · exact ⟨rfl, rfl⟩
  · exact ⟨rfl, rfl⟩

theorem onInput_timersOwned (now : Nat) (value : String) (s : State)
    (h : TimersOwned s) : TimersOwned (onInput now value s).state := by
  by_cases ha : s.autocompleteActive = true
  · exact (onInput_active now value s ha h).2.2.2
  · apply timersOwned_of_same s _ h
    unfold onInput
    split
    · rename_i v box hi hb
      exact absurd (by simp [State.autocompleteActive, hi, hb]) ha
    · exact ⟨rfl, rfl⟩
    · exact ⟨rfl, rfl⟩

theorem onTimer_timersOwned (id : Nat) (s : State) (h : TimersOwned s) :
    TimersOwned (onTimer id s).state := by
  intro t ht
  simp only [onTimer, fireTimers, List.mem_filter] at ht
  exact h t ht.1

theorem step_timersOwned (ev : Event) (s : State) (h : TimersOwned s) :
    TimersOwned (step ev s).state := by
  cases ev with
  | input now value => exact onInput_timersOwned now value s h
  | timer id => exact onTimer_timersOwned id s h
  | fetchResult r => exact timersOwned_of_same s _ h (onFetchResult_sameTimers r s)
  | keydown key => exact timersOwned_of_same s _ h (onKeydown_sameTimers key s)
  | documentClick t => exact timersOwned_of_same s _ h (onDocumentClick_sameTimers t s)
  | itemClick i => exact timersOwned_of_same s _ h (clickItem_sameTimers i s)
  | submit => exact timersOwned_of_same s _ h (onSubmit_sameTimers s)

/-- In every state reachable from a freshly loaded page, every pending timer is
the one the variable `debounceTimer` refers to: at most one timer is pending. -/
theorem run_timersOwned (evs : List Event) (input : Option String)
    (hasBox hasForm boxInForm : Bool) :
    TimersOwned (run evs (initialState input hasBox hasForm boxInForm)).state := by
  have h0 : TimersOwned (initialState input hasBox hasForm boxInForm) := by
    intro t ht
    simp [initialState] at ht
  have key : ∀ (evs : List Event) (s : State), TimersOwned s →
      TimersOwned (run evs s).state := by
    intro evs
    induction evs with
    | nil => intro s h; exact h
    | cons ev evs ih => intro s h; exact ih _ (step_timersOwned ev s h)
  exact key evs _ h0

/-- C1, counterexample: one input event whose value is blank issues no lookup
at all, so "exactly one lookup with the value of the last event" fails. -/
theorem debounce_single_lookup_counterexample :
    lookups (typingBurst [(0, "   ")] fullPage).effects = [] ∧
    lookups (typingBurst [(0, "   ")] fullPage).effects ≠ [jsTrim "   "] := by
  decide

/-! ## Selection -/

/-- A rendered item keeps the suggestion it was made from, starts inactive, and
its `text` converts to an input value as well. -/
theorem renderItem_ok (x : JsVal) (it : Item) (h : renderItem x = .ok it) :
    it.suggestion = x ∧ it.active = false ∧
    ∃ text value, x.get "text" = .ok text ∧ toInputValue text = .ok value := by
  unfold renderItem at h
  split at h
  · exact absurd h (by simp)
  · rename_i text htext
    split at h
    · exact absurd h (by simp)
    · rename_i textStr hstr
      split at h
      · exact absurd h (by simp)
      · split at h
        · exact absurd h (by simp)
        · injection h with h
          subst h
          refine ⟨rfl, rfl, text, ?_⟩
          unfold toTextContent at hstr
          unfold toInputValue
          split at hstr
          · exact ⟨_, htext, rfl⟩
          · exact ⟨_, htext, rfl⟩
          · rename_i v hnull
            split at hstr
            · rename_i str hv
              refine ⟨stripNewlines str, htext, ?_⟩
              cases v <;> simp_all
            · exact absurd hstr (by simp)

theorem itemClickListener_rendered (it : Item) (text : Option JsVal) (value : String)
    (s : State) (ha : s.autocompleteActive = true) (hform : s.searchForm = true)
    (htext : it.suggestion.get "text" = .ok text)
    (hvalue : toInputValue text = .ok value) :
    itemClickListener it s =
      ⟨{ s with
          searchInput := some value,
          suggestionsBox := some ⟨false, []⟩,
          currentFocus := -1 },
        [.formSubmit]⟩ := by
  obtain ⟨v, box, hi, hb⟩ := (active_iff s).1 ha
  simp [itemClickListener, hi, hb, htext, hvalue, hideSuggestions, hform]

/-- A click on a rendered item on a page that has the form. -/
theorem clickItem_rendered (i : Nat) (it : Item) (text : Option JsVal) (value : String)
    (s : State) (ha : s.autocompleteActive = true) (hform : s.searchForm = true)
    (hit : s.items[i]? = some it) (htext : it.suggestion.get "text" = .ok text)
    (hvalue : toInputValue text = .ok value) :
    clickItem i s =
      ⟨{ s with
          searchInput := some value,
          suggestionsBox := some ⟨false, []⟩,
          currentFocus := -1 },
        [.formSubmit]⟩ := by
  unfold clickItem
  rw [hit]
  simp only [itemClickListener_rendered it text value s ha hform htext hvalue]
  simp [onDocumentClick, State.autocompleteActive, State.items, hideSuggestions, hform]

theorem stripNewlines_clean (t : String)
    (h : ∀ c ∈ t.data, c.toNat ≠ 0x0A ∧ c.toNat ≠ 0x0D) : stripNewlines t = t := by
  have hf : t.data.filter (fun c => !(c.toNat = 0x0A || c.toNat = 0x0D)) = t.data := by
    rw [List.filter_eq_self]
    intro c hc
    have := h c hc
    simp [this.1, this.2]
  unfold stripNewlines
  rw [hf]

theorem onKeydown_enter (s : State) (ha : s.autocompleteActive = true) :
    onKeydown "Enter" s =
      if s.currentFocus > -1 ∧ s.currentFocus.toNat < s.items.length then
        ⟨(clickItem s.currentFocus.toNat s).state,
          .preventDefault :: (clickItem s.currentFocus.toNat s).effects⟩
      else ⟨s, []⟩ := by
  obtain ⟨v, box, hi, hb⟩ := (active_iff s).1 ha
  simp [onKeydown, hi, hb, State.items]

/-- C5 (as the code has it): on a page with the form, an Enter keydown with
`currentFocus` at a rendered item `i` prevents the default and then yields
exactly the state and effects of a click on item `i`: the input's value becomes
the string that the value setter stores for the item's `suggestion.text` (for a
string, the string with its line breaks removed, hence the string itself when
it has none), the panel is hidden with no items and `currentFocus = -1`, the
timers are untouched and the form is submitted once. When `currentFocus` is not
a valid index, Enter changes nothing and does not prevent the default. -/
theorem enter_equals_click (s : State) (ha : s.autocompleteActive = true)
    (hform : s.searchForm = true) :
    (∀ (i : Nat) (it r : Item), s.currentFocus = (i : Int) → s.items[i]? = some it →
        renderItem it.suggestion = .ok r →
      (onKeydown "Enter" s).state = (clickItem i s).state ∧
      (onKeydown "Enter" s).effects = .preventDefault :: (clickItem i s).effects ∧
      (clickItem i s).effects = [.formSubmit] ∧
      Hidden (clickItem i s).state ∧
      (clickItem i s).state.debounceTimer = s.debounceTimer ∧
      (clickItem i s).state.timers = s.timers ∧
      (∃ text value, it.suggestion.get "text" = .ok text ∧ toInputValue text = .ok value ∧
        (clickItem i s).state.searchInput = some value) ∧
      (∀ t, it.suggestion.get "text" = .ok (some (.str t)) →
        (clickItem i s).state.searchInput = some (stripNewlines t)) ∧
      (∀ t, it.suggestion.get "text" = .ok (some (.str t)) →
        (∀ c ∈ t.data, c.toNat ≠ 0x0A ∧ c.toNat ≠ 0x0D) →
        (clickItem i s).state.searchInput = some t)) ∧
    ((s.currentFocus < 0 ∨ (s.items.length : Int) ≤ s.currentFocus) →
      (onKeydown "Enter" s).state = s ∧ (onKeydown "Enter" s).effects = []) := by
  refine ⟨?_, ?_⟩
  · intro i it r hfocus hit hr
    obtain ⟨_, _, text, value, htext, hvalue⟩ := renderItem_ok _ _ hr
    have hlt : i < s.items.length := by
      rcases Nat.lt_or_ge i s.items.length with h | h
      · exact h
      · rw [List.getElem?_eq_none h] at hit
        exact absurd hit (by simp)
    have hclick := clickItem_rendered i it text value s ha hform hit htext hvalue
    have hnat : s.currentFocus.toNat = i := by omega
    have hcond : s.currentFocus > -1 ∧ s.currentFocus.toNat < s.items.length := by
      constructor <;> omega
    have hstr : ∀ t, it.suggestion.get "text" = .ok (some (.str t)) →
        value = stripNewlines t := by
      intro t ht
      rw [htext] at ht
      injection ht with ht
      subst ht
      simp only [toInputValue, JsVal.toJsString] at hvalue
      injection hvalue with hvalue
      exact hvalue.symm
    rw [onKeydown_enter s ha, if_pos hcond, hnat, hclick]
    refine ⟨rfl, rfl, rfl, by simp [Hidden, State.shown, State.items], rfl, rfl,
      ⟨text, value, htext, hvalue, rfl⟩, ?_, ?_⟩
    · intro t ht
      rw [hstr t ht]
    · intro t ht hclean
      rw [hstr t ht, stripNewlines_clean t hclean]
  · intro h
    have hcond : ¬ (s.currentFocus > -1 ∧ s.currentFocus.toNat < s.items.length) := by
      omega
    rw [onKeydown_enter s ha, if_neg hcond]
    exact ⟨rfl, rfl⟩

theorem enter_equals_click_witness :
    ({ sampleRendered with currentFocus := 0 } : State).autocompleteActive = true ∧
    (onKeydown "Enter" { sampleRendered with currentFocus := 0 }).state.searchInput =
      some "abc" ∧
    (onKeydown "Enter" { sampleRendered with currentFocus := 0 }).effects =
      [.preventDefault, .formSubmit] ∧
    (onKeydown "Enter" sampleRendered).effects = [] := by
  have h := enter_equals_click { sampleRendered with currentFocus := 0 } (by decide) (by decide)
  have h1 := h.1 0 ⟨"abc", "tag", suggestionRecord "abc" "tag", false⟩
    ⟨"abc", "tag", suggestionRecord "abc" "tag", false⟩ rfl rfl rfl
  have h2 := enter_equals_click sampleRendered (by decide) (by decide)
  refine ⟨by decide, ?_, ?_, (h2.2 (by decide)).2⟩
  · rw [h1.1]
    exact h1.2.2.2.2.2.2.2.2 "abc" rfl (by decide)
  · rw [h1.2.1, h1.2.2.1]

/-- C5, counterexample: with the suggestion `{text: "a\nb", type: "tag"}`
rendered at index 0 and `currentFocus = 0`, Enter leaves the value `"ab"` in
the input, not the suggestion's text. -/
theorem enter_equals_click_counterexample :
    lineBreakRendered.items.map (fun it => it.text) = ["a\nb"] ∧
    lineBreakRendered.currentFocus = 0 ∧
    (onKeydown "Enter" lineBreakRendered).state.searchInput = some "ab" ∧
    (onKeydown "Enter" lineBreakRendered).state.searchInput ≠ some "a\nb" := by
  decide

/-! ## Items of reachable states are rendered items -/

theorem modify_suggestions (items : List Item) (k : Nat) :
    (items.modify (fun it => { it with active := true }) k).map (fun it => it.suggestion) =
      items.map (fun it => it.suggestion) := by
  induction items generalizing k with
  | nil => simp
  | cons a rest ih =>
    cases k with
    | zero => simp
    | succ k => simp [ih k]

theorem addActive_suggestions (items : List Item) (focus : Int) :
    (addActive items focus).1.map (fun it => it.suggestion) =
      items.map (fun it => it.suggestion) := by
  have hrem : (removeActive items).map (fun it => it.suggestion) =
      items.map (fun it => it.suggestion) := by
    simp [removeActive]
  simp only [addActive, setActiveAt]
  split_ifs
  · rw [modify_suggestions, hrem]
  · exact hrem

theorem renderItems_rendered (xs : List JsVal) :
    ∀ x ∈ (renderItems xs).1.map (fun it => it.suggestion), ∃ r, renderItem x = .ok r := by
  induction xs with
  | nil => simp [renderItems]
  | cons a rest ih =>
    unfold renderItems
    split
    · simp
    · rename_i it hit
      intro x hx
      simp only [List.map_cons, List.mem_cons] at hx
      rcases hx with rfl | hx
      · rw [(renderItem_ok a it hit).1]
        exact ⟨it, hit⟩
      · exact ih x hx

theorem itemsRendered_of_nil (s : State) (h : s.items = []) : ItemsRendered s := by
  simp [ItemsRendered, h]

theorem itemsRendered_of_items (s t : State) (h : ItemsRendered s)
    (heq : t.items = s.items) : ItemsRendered t := by
  simpa [ItemsRendered, heq] using h

theorem displaySuggestions_rendered (suggestions : Option JsVal) (s : State)
    (h : ItemsRendered s) : ItemsRendered (displaySuggestions suggestions s).1 := by
  unfold displaySuggestions
  split
  · exact h
  · rename_i box hb
    simp only [hideSuggestions]
    split_ifs
    · exact itemsRendered_of_nil _ (by simp [State.items])
    · split
      · rename_i xs _
        have := renderItems_rendered xs
        split <;> simpa [ItemsRendered, State.items] using this
      · exact itemsRendered_of_nil _ (by simp [State.items])

theorem onFetchResult_rendered (r : FetchResult) (s : State) (h : ItemsRendered s) :
    ItemsRendered (onFetchResult r s).state := by
  have key : ∀ d : State × Option JsError, ItemsRendered d.1 →
      ItemsRendered (match d.2 with
        | some e => (⟨d.1, [.consoleError e]⟩ : Outcome)
        | none => ⟨d.1, []⟩).state := by
    intro d hd
    split <;> exact hd
  unfold onFetchResult
  apply key
  cases r with
  | failed => exact h
  | received resp =>
    cases hbody : resp.body with
    | none => simpa [hbody] using h
    | some data =>
      simp only [hbody]
      cases hget : data.get "suggestions" with
      | error e => exact h
      | ok suggestions => exact displaySuggestions_rendered suggestions s h

theorem onInput_rendered (now : Nat) (value : String) (s : State)
    (h : ItemsRendered s) : ItemsRendered (onInput now value s).state := by
  unfold onInput
  split
  · rename_i v box hi hb
    simp only [hideSuggestions, hb]
    split_ifs
    · exact itemsRendered_of_nil _ (by simp [State.items])
    · exact itemsRendered_of_items s _ h (by simp [State.items, hb])
  · exact itemsRendered_of_items s _ h (by simp [State.items])
  · exact h

theorem onTimer_rendered (id : Nat) (s : State) (h : ItemsRendered s) :
    ItemsRendered (onTimer id s).state :=
  itemsRendered_of_items s _ h (by simp [onTimer, fireTimers, State.items])

theorem itemClickListener_rendered_inv (it : Item) (s : State) (h : ItemsRendered s) :
    ItemsRendered (itemClickListener it s).state := by
  unfold itemClickListener
  split
  · exact h
  · split
    · exact h
    · split
      · exact h
      · cases hb : s.suggestionsBox with
        | none =>
          simp only [hideSuggestions, hb]
          exact itemsRendered_of_items s _ h (by simp [State.items, hb])
        | some box =>
          simp only [hideSuggestions, hb]
          split_ifs <;> exact itemsRendered_of_nil _ (by simp [State.items])

theorem onDocumentClick_rendered (targetInForm : Bool) (s : State)
    (h : ItemsRendered s) : ItemsRendered (onDocumentClick targetInForm s).state := by
  unfold onDocumentClick
  split_ifs
  · cases hb : s.suggestionsBox with
    | none => simpa [hideSuggestions, hb] using h
    | some box =>
      simp only [hideSuggestions, hb]
      exact itemsRendered_of_nil _ (by simp [State.items])
  · exact h
  · exact h
  · exact h

theorem clickItem_rendered_inv (i : Nat) (s : State) (h : ItemsRendered s) :
    ItemsRendered (clickItem i s).state := by
  unfold clickItem
  split
  · exact h
  · exact onDocumentClick_rendered _ _ (itemClickListener_rendered_inv _ s h)

theorem onSubmit_rendered (s : State) (h : ItemsRendered s) :
    ItemsRendered (onSubmit s).state := by
  unfold onSubmit
  split_ifs
  · cases hb : s.suggestionsBox with
    | none => simpa [hideSuggestions, hb] using h
    | some box =>
      simp only [hideSuggestions, hb]
      exact itemsRendered_of_nil _ (by simp [State.items])
  · exact h

theorem onKeydown_rendered (key : String) (s : State) (h : ItemsRendered s) :
    ItemsRendered (onKeydown key s).state := by
  unfold onKeydown
  split
  · rename_i v box hi hb
    have hbox : ∀ x ∈ box.items.map (fun it => it.suggestion), ∃ r, renderItem x = .ok r := by
      simpa [ItemsRendered, State.items, hb] using h
    split_ifs
    · simpa [ItemsRendered, State.items, addActive_suggestions] using hbox
    · simpa [ItemsRendered, State.items, addActive_suggestions] using hbox
    · exact clickItem_rendered_inv _ s h
    · exact h
    · simp only [hideSuggestions, hb]
      exact itemsRendered_of_nil _ (by simp [State.items])
    · exact h
  · exact h

theorem step_rendered (ev : Event) (s : State) (h : ItemsRendered s) :
    ItemsRendered (step ev s).state := by
  cases ev with
  | input now value => exact onInput_rendered now value s h
  | timer id => exact onTimer_rendered id s h
  | fetchResult r => exact onFetchResult_rendered r s h
  | keydown key => exact onKeydown_rendered key s h
  | documentClick t => exact onDocumentClick_rendered t s h
  | itemClick i => exact clickItem_rendered_inv i s h
  | submit => exact onSubmit_rendered s h

/-- In every state reachable from a freshly loaded page, the items of the box
are rendered items. -/
theorem run_rendered (evs : List Event) (input : Option String)
    (hasBox hasForm boxInForm : Bool) :
    ItemsRendered (run evs (initialState input hasBox hasForm boxInForm)).state := by
  have h0 : ItemsRendered (initialState input hasBox hasForm boxInForm) := by
    cases hasBox <;> simp [ItemsRendered, initialState, State.items]
  have key : ∀ (evs : List Event) (s : State), ItemsRendered s →
      ItemsRendered (run evs s).state := by
    intro evs
    induction evs with
    | nil => intro s h; exact h
    | cons ev evs ih => intro s h; exact ih _ (step_rendered ev s h)
  exact key evs _ h0

/-! ## Lookup responses -/

/-- C6: when the transport of a lookup fails, or its response body is not valid
JSON (whatever the status), the state after the lookup completes equals the
state before it in every component, and the only effect is one logged error:
nothing is left uncaught. -/
theorem malformed_response_tolerance :
    (∀ s : State, (onFetchResult .failed s).state = s ∧
      (onFetchResult .failed s).effects = [.consoleError .networkFailure]) ∧
    (∀ (s : State) (status : Nat),
      (onFetchResult (.received ⟨status, none⟩) s).state = s ∧
      (onFetchResult (.received ⟨status, none⟩) s).effects =
        [.consoleError .syntaxError]) :=
  ⟨fun _ => ⟨rfl, rfl⟩, fun _ _ => ⟨rfl, rfl⟩⟩

/-- C8 (as the code has it): the status of a response is never read. A response
is handled exactly like a response of status 200 with the same body, so a
non-2xx response whose body is valid JSON is rendered like any other and one
whose body is not valid JSON is logged as a parse failure; only a rejected
`fetch` (no response at all) is a transport failure, logged with the state
unchanged. -/
theorem status_not_read :
    (∀ (s : State) (status : Nat) (body : Option JsVal),
      onFetchResult (.received ⟨status, body⟩) s =
        onFetchResult (.received ⟨200, body⟩) s) ∧
    (∀ (s : State) (status : Nat),
      (onFetchResult (.received ⟨status, none⟩) s).state = s ∧
      (onFetchResult (.received ⟨status, none⟩) s).effects =
        [.consoleError .syntaxError]) ∧
    (∀ s : State, (onFetchResult .failed s).state = s ∧
      (onFetchResult .failed s).effects = [.consoleError .networkFailure]) :=
  ⟨fun _ _ _ => rfl, fun _ _ => ⟨rfl, rfl⟩, fun _ => ⟨rfl, rfl⟩⟩

/-- C8, counterexample: a response of status 500 whose body is a JSON object
with three suggestions is rendered on the full page: no error is logged, the
panel is shown and holds the three items of that body. -/
theorem status_not_read_counterexample :
    (onFetchResult (.received ⟨500, some (suggestionsBody sampleSuggestions)⟩)
      fullPage).effects = [] ∧
    (onFetchResult (.received ⟨500, some (suggestionsBody sampleSuggestions)⟩)
      fullPage).state.shown = true ∧
    (onFetchResult (.received ⟨500, some (suggestionsBody sampleSuggestions)⟩)
      fullPage).state.items.map (fun it => it.text) = ["abc", "abd", "abe"] := by
  decide

theorem onFetchResult_received (s : State) (status : Nat) (data : JsVal)
    (suggestions : Option JsVal) (hget : data.get "suggestions" = .ok suggestions) :
    onFetchResult (.received ⟨status, some data⟩) s =
      match (displaySuggestions suggestions s).2 with
      | some e => ⟨(displaySuggestions suggestions s).1, [.consoleError e]⟩
      | none => ⟨(displaySuggestions suggestions s).1, []⟩ := by
  simp [onFetchResult, hget]

/-- The render loop on a list whose elements `pre` render to `items` and whose
next element throws: the loop stops there with the items of `pre` appended. -/
theorem renderItems_throw (pre : List JsVal) (items : List Item) (bad : JsVal)
    (post : List JsVal) (e : JsError)
    (hpre : List.Forall₂ (fun x it => renderItem x = .ok it) pre items)
    (hbad : renderItem bad = .error e) :
    renderItems (pre ++ bad :: post) = (items, some e) := by
  induction hpre with
  | nil => simp [renderItems, hbad]
  | cons hx _ ih => simp [renderItems, hx, ih]

/-- C7 (as the code has it), on a page with the container. A parsed body that
is `null` makes the read of `data.suggestions` throw: the error is logged and
the state is unchanged. For every other parsed body: when `suggestions` is
absent, `null`, otherwise falsy, or of length 0, the lookup ends like the
render of an empty list: panel hidden, no items, `currentFocus = -1`, nothing
logged; when `suggestions` is truthy and not a list, the render throws after
clearing the items: the error is logged, no item is rendered,
`currentFocus = -1` and the `show` class stays as it was; when it is a list
whose elements `pre` render and whose next element throws (as `null` does),
the items of `pre` are rendered, the error is logged, `currentFocus = -1` and
the `show` class stays as it was. -/
theorem malformed_suggestions (s : State) (box : Box) (status : Nat)
    (hb : s.suggestionsBox = some box) :
    ((onFetchResult (.received ⟨status, some .null⟩) s).state = s ∧
      (onFetchResult (.received ⟨status, some .null⟩) s).effects =
        [.consoleError .typeError]) ∧
    (∀ data : JsVal, data ≠ .null → ∃ suggestions, data.get "suggestions" = .ok suggestions) ∧
    (∀ (data : JsVal) (suggestions : Option JsVal),
      data.get "suggestions" = .ok suggestions →
      ((truthy suggestions = false ∨ lengthIsZero suggestions = true) →
        (onFetchResult (.received ⟨status, some data⟩) s).state =
          (displaySuggestions (some (.arr [])) s).1 ∧
        Hidden (onFetchResult (.received ⟨status, some data⟩) s).state ∧
        (onFetchResult (.received ⟨status, some data⟩) s).effects = []) ∧
      (truthy suggestions = true → lengthIsZero suggestions = false →
        (∀ xs, suggestions ≠ some (.arr xs)) →
        (onFetchResult (.received ⟨status, some data⟩) s).state =
          { s with suggestionsBox := some ⟨box.showClass, []⟩, currentFocus := -1 } ∧
        (onFetchResult (.received ⟨status, some data⟩) s).effects =
          [.consoleError .typeError]) ∧
      (∀ (pre : List JsVal) (items : List Item) (bad : JsVal) (post : List JsVal)
          (e : JsError),
        suggestions = some (.arr (pre ++ bad :: post)) →
        List.Forall₂ (fun x it => renderItem x = .ok it) pre items →
        renderItem bad = .error e →
        (onFetchResult (.received ⟨status, some data⟩) s).state =
          { s with suggestionsBox := some ⟨box.showClass, items⟩, currentFocus := -1 } ∧
        (onFetchResult (.received ⟨status, some data⟩) s).effects = [.consoleError e])) ∧
    renderItem .null = .error .typeError ∧
    (∀ text type : String,
      renderItem (suggestionRecord text type) =
        .ok ⟨text, type, suggestionRecord text type, false⟩) := by
  refine ⟨⟨rfl, rfl⟩, ?_, ?_, rfl, fun _ _ => rfl⟩
  · intro data hdata
    cases data with
    | null => exact absurd rfl hdata
    | obj props => exact ⟨_, rfl⟩
    | bool b => exact ⟨_, rfl⟩
    | num n => exact ⟨_, rfl⟩
    | str t => exact ⟨_, rfl⟩
    | arr xs => exact ⟨_, rfl⟩
  intro data suggestions hget
  rw [onFetchResult_received s status data suggestions hget]
  refine ⟨?_, ?_, ?_⟩
  · intro h
    have hcond : (!truthy suggestions || lengthIsZero suggestions) = true := by
      rcases h with h | h <;> simp [h]
    have hd : displaySuggestions suggestions s =
        ({ s with suggestionsBox := some ⟨false, []⟩, currentFocus := -1 }, none) := by
      simp [displaySuggestions, hb, hcond, hideSuggestions]
    have he : displaySuggestions (some (.arr [])) s =
        ({ s with suggestionsBox := some ⟨false, []⟩, currentFocus := -1 }, none) := by
      simp [displaySuggestions, hb, hideSuggestions, truthy, lengthIsZero]
    rw [hd, he]
    exact ⟨rfl, by simp [Hidden, State.shown, State.items], rfl⟩
  · intro ht hl hnot
    have hcond : ¬ ((!truthy suggestions || lengthIsZero suggestions) = true) := by
      simp [ht, hl]
    have hd : displaySuggestions suggestions s =
        ({ s with suggestionsBox := some ⟨box.showClass, []⟩, currentFocus := -1 },
          some .typeError) := by
      unfold displaySuggestions
      simp only [hb, if_neg hcond]
    rw [hd]
    exact ⟨rfl, rfl⟩
  · intro pre items bad post e hs hpre hbad
    subst hs
    have hthrow := renderItems_throw pre items bad post e hpre hbad
    have hcond : ¬ ((!truthy (some (.arr (pre ++ bad :: post))) ||
        lengthIsZero (some (.arr (pre ++ bad :: post)))) = true) := by
      cases pre <;> simp [truthy, lengthIsZero]
    have hd : displaySuggestions (some (.arr (pre ++ bad :: post))) s =
        ({ s with suggestionsBox := some ⟨box.showClass, items⟩, currentFocus := -1 },
          some e) := by
      unfold displaySuggestions
      simp only [hb, if_neg hcond, hthrow]
    rw [hd]
    exact ⟨rfl, rfl⟩

theorem malformed_suggestions_witness :
    sampleRendered.suggestionsBox = some ⟨true, sampleRendered.items⟩ ∧
    (onFetchResult (.received ⟨200, some .null⟩) sampleRendered).state.shown = true ∧
    Hidden (onFetchResult (.received ⟨200, some (.obj [("results", .arr [])])⟩)
      sampleRendered).state ∧
    Hidden (onFetchResult (.received ⟨200, some (suggestionsBody .null)⟩)
      sampleRendered).state ∧
    (onFetchResult (.received ⟨200, some (suggestionsBody (.str "abc"))⟩)
      sampleRendered).effects = [.consoleError .typeError] ∧
    (onFetchResult (.received
        ⟨200, some (suggestionsBody (.arr [suggestionRecord "abc" "tag", .null]))⟩)
      sampleRendered).state.items =
        [⟨"abc", "tag", suggestionRecord "abc" "tag", false⟩] := by
  have h := malformed_suggestions sampleRendered ⟨true, sampleRendered.items⟩ 200 rfl
  have h0 : (onFetchResult (.received ⟨200, some .null⟩) sampleRendered).state.shown = true := by
    rw [h.1.1]
    decide
  have h1 := (h.2.2.1 (.obj [("results", .arr [])]) none rfl).1 (Or.inl rfl)
  have h2 := (h.2.2.1 (suggestionsBody .null) (some .null) rfl).1 (Or.inl rfl)
  have h3 := (h.2.2.1 (suggestionsBody (.str "abc")) (some (.str "abc")) rfl).2.1
    (by decide) (by decide) (by intro xs hx; cases hx)
  have h4 := (h.2.2.1 (suggestionsBody (.arr [suggestionRecord "abc" "tag", .null]))
    (some (.arr [suggestionRecord "abc" "tag", .null])) rfl).2.2
    [suggestionRecord "abc" "tag"] [⟨"abc", "tag", suggestionRecord "abc" "tag", false⟩]
    .null [] .typeError rfl (List.Forall₂.cons rfl List.Forall₂.nil) rfl
  refine ⟨rfl, h0, h1.2.1, h2.2.1, h3.2, ?_⟩
  rw [h4.1]
  rfl

/-- C7, counterexample: with three suggestions shown, a response whose
`suggestions` is the number 5 leaves the panel with its `show` class (and no
item), and one whose `suggestions` is a list with a record followed by `null`
leaves it shown with one item; rendering an empty list hides the panel. -/
theorem malformed_suggestions_counterexample :
    (onFetchResult (.received ⟨200, some (suggestionsBody (.num "5"))⟩)
      sampleRendered).state.shown = true ∧
    (onFetchResult (.received
        ⟨200, some (suggestionsBody (.arr [suggestionRecord "abc" "tag", .null]))⟩)
      sampleRendered).state.shown = true ∧
    (onFetchResult (.received
        ⟨200, some (suggestionsBody (.arr [suggestionRecord "abc" "tag", .null]))⟩)
      sampleRendered).state.items.length = 1 ∧
    (displaySuggestions (some (.arr [])) sampleRendered).1.shown = false := by
  decide

/-! ## Dismissal -/

/-- C9: on a page with the input, the container and the form, from every state
whose items are rendered items, each dismissal leaves the panel hidden, with no
rendered item and `currentFocus = -1`: an input event whose trimmed value has
length 0 (which also cancels the timer `debounceTimer` refers to, so that, the
pending timers being that one, no timer is left and no lookup follows), a
render of an absent, `null` or empty suggestion list, an Escape keydown, a
document click whose target is not contained in the form, a click on a
suggestion item, and a form submit. -/
theorem dismissal_reaches_hidden (s : State) (ha : s.autocompleteActive = true)
    (hform : s.searchForm = true) (hr : ItemsRendered s) :
    (∀ (now : Nat) (value : String), (jsTrim value).length = 0 →
      Hidden (onInput now value s).state ∧
      lookups (onInput now value s).effects = [] ∧
      (∀ t ∈ (onInput now value s).state.timers, s.debounceTimer ≠ some t.id) ∧
      (TimersOwned s →
        (onInput now value s).state.timers = [] ∧
        lookups (fireAll (onInput now value s).state).effects = [])) ∧
    (∀ suggestions : Option JsVal,
      suggestions = none ∨ suggestions = some .null ∨ suggestions = some (.arr []) →
      Hidden (displaySuggestions suggestions s).1 ∧
      (displaySuggestions suggestions s).2 = none) ∧
    Hidden (onKeydown "Escape" s).state ∧
    Hidden (onDocumentClick false s).state ∧
    (∀ i : Nat, i < s.items.length → Hidden (clickItem i s).state) ∧
    Hidden (onSubmit s).state := by
  obtain ⟨v, box, hi, hb⟩ := (active_iff s).1 ha
  have hhid : Hidden { s with suggestionsBox := some ⟨false, []⟩, currentFocus := -1 } := by
    simp [Hidden, State.shown, State.items]
  refine ⟨?_, ?_, ?_, ?_, ?_, ?_⟩
  · intro now value hlen
    have hlt : (jsTrim value).length < 1 := by omega
    have ho : onInput now value s =
        ⟨{ s with
            searchInput := some value,
            suggestionsBox := some ⟨false, []⟩,
            timers := clearTimeout s.debounceTimer s.timers,
            currentFocus := -1 }, []⟩ := by
      simp [onInput, hi, hb, hlt, hideSuggestions]
    rw [ho]
    refine ⟨by simp [Hidden, State.shown, State.items], rfl, ?_, ?_⟩
    · intro t ht hd
      simp only [clearTimeout, hd, List.mem_filter] at ht
      simp at ht
    · intro hown
      have hclear := clearTimeout_owned s hown
      exact ⟨hclear, by simp [fireAll, fireTimers, hclear, lookups]⟩
  · intro suggestions hs
    have hd : displaySuggestions suggestions s =
        ({ s with suggestionsBox := some ⟨false, []⟩, currentFocus := -1 }, none) := by
      rcases hs with rfl | rfl | rfl <;>
        simp [displaySuggestions, hb, hideSuggestions, truthy, lengthIsZero]
    rw [hd]
    exact ⟨hhid, rfl⟩
  · have ho : onKeydown "Escape" s =
        ⟨{ s with suggestionsBox := some ⟨false, []⟩, currentFocus := -1 }, []⟩ := by
      simp [onKeydown, hi, hb, hideSuggestions]
    rw [ho]
    exact hhid
  · have ho : onDocumentClick false s =
        ⟨{ s with suggestionsBox := some ⟨false, []⟩, currentFocus := -1 }, []⟩ := by
      simp [onDocumentClick, ha, hform, hb, hideSuggestions]
    rw [ho]
    exact hhid
  · intro i hlt
    obtain ⟨it, hit⟩ : ∃ it, s.items[i]? = some it := ⟨_, List.getElem?_eq_getElem hlt⟩
    have hmem : it.suggestion ∈ s.items.map (fun it => it.suggestion) :=
      List.mem_map_of_mem _ (List.getElem?_mem hit)
    obtain ⟨r, hrender⟩ := hr _ hmem
    obtain ⟨_, _, text, value, htext, hvalue⟩ := renderItem_ok _ _ hrender
    rw [clickItem_rendered i it text value s ha hform hit htext hvalue]
    simp [Hidden, State.shown, State.items]
  · have ho : onSubmit s =
        ⟨{ s with suggestionsBox := some ⟨false, []⟩, currentFocus := -1 }, []⟩ := by
      simp [onSubmit, hform, hb, hideSuggestions]
    rw [ho]
    exact hhid

theorem dismissal_reaches_hidden_witness :
    sampleRendered.autocompleteActive = true ∧ sampleRendered.shown = true ∧
    Hidden (onInput 10 "  " sampleRendered).state ∧
    Hidden (onKeydown "Escape" sampleRendered).state ∧
    Hidden (onDocumentClick false sampleRendered).state ∧
    Hidden (clickItem 1 sampleRendered).state ∧
    Hidden (onSubmit sampleRendered).state := by
  have h := dismissal_reaches_hidden sampleRendered (by decide) (by decide)
    (displaySuggestions_rendered _ fullPage (by simp [ItemsRendered, fullPage, initialState, State.items]))
  exact ⟨by decide, by decide, (h.1 10 "  " (by decide)).1, h.2.2.1, h.2.2.2.1,
    h.2.2.2.2.1 1 (by decide), h.2.2.2.2.2⟩

/-! ## Absent page elements -/

/-- C10, failing inputs: on a page with the input and the container but no
form, a document click throws at `searchForm.contains` and a click on a
rendered item throws at `searchForm.submit()` (and again in the document
listener); on a page with the form but no container, with or without the
input, a submit throws at `suggestionsBox.classList` in `hideSuggestions`. -/
theorem absent_element_dereferenced :
    (onDocumentClick false (initialState (some "") true false false)).effects =
      [.uncaught .typeError] ∧
    (clickItem 0 (displaySuggestions (some sampleSuggestions)
        (initialState (some "") true false false)).1).effects =
      [.uncaught .typeError, .uncaught .typeError] ∧
    (onSubmit (initialState (some "") false true false)).effects =
      [.uncaught .typeError] ∧
    (onSubmit (initialState none false true false)).effects = [.uncaught .typeError] := by
  decide

/-! ## Pages on which no listener throws -/

theorem samePage_refl (s : State) : SamePage s s := ⟨rfl, rfl, rfl⟩

theorem onInput_samePage (now : Nat) (value : String) (s : State) :
    SamePage s (onInput now value s).state ∧ noUncaught (onInput now value s).effects = true := by
  unfold onInput
  split
  · rename_i v box hi hb
    simp only [hideSuggestions, hb]
    split_ifs <;> simp [SamePage, hi, hb, noUncaught]
  · rename_i v hi hb
    simp [SamePage, hi, noUncaught]
  · exact ⟨samePage_refl s, rfl⟩

theorem onTimer_samePage (id : Nat) (s : State) :
    SamePage s (onTimer id s).state ∧ noUncaught (onTimer id s).effects = true := by
  refine ⟨by simp [onTimer, fireTimers, SamePage], ?_⟩
  simp only [onTimer, fireTimers, noUncaught, timerCallback, List.all_eq_true, List.mem_map]
  rintro e ⟨t, _, rfl⟩
  rfl

theorem displaySuggestions_samePage (suggestions : Option JsVal) (s : State) :
    SamePage s (displaySuggestions suggestions s).1 := by
  unfold displaySuggestions
  split
  · exact samePage_refl s
  · rename_i box hb
    simp only [hideSuggestions]
    split_ifs
    · simp [SamePage, hb]
    · split
      · split <;> simp [SamePage, hb]
      · simp [SamePage, hb]

theorem onFetchResult_samePage (r : FetchResult) (s : State) :
    SamePage s (onFetchResult r s).state ∧ noUncaught (onFetchResult r s).effects = true := by
  have key : ∀ d : State × Option JsError, SamePage s d.1 →
      SamePage s (match d.2 with
        | some e => (⟨d.1, [.consoleError e]⟩ : Outcome)
        | none => ⟨d.1, []⟩).state ∧
      noUncaught (match d.2 with
        | some e => (⟨d.1, [.consoleError e]⟩ : Outcome)
        | none => ⟨d.1, []⟩).effects = true := by
    intro d hd
    split <;> exact ⟨hd, rfl⟩
  unfold onFetchResult
  apply key
  cases r with
  | failed => exact samePage_refl s
  | received resp =>
    cases hbody : resp.body with
    | none => simpa [hbody] using samePage_refl s
    | some data =>
      simp only [hbody]
      cases hget : data.get "suggestions" with
      | error e => exact samePage_refl s
      | ok suggestions => exact displaySuggestions_samePage suggestions s

theorem onDocumentClick_samePage (targetInForm : Bool) (s : State) :
    SamePage s (onDocumentClick targetInForm s).state ∧
    (ElementsSuffice s → noUncaught (onDocumentClick targetInForm s).effects = true) := by
  unfold onDocumentClick
  split_ifs with ha hf ht
  · obtain ⟨v, box, hi, hb⟩ := (active_iff s).1 ha
    simp [hideSuggestions, hb, SamePage, noUncaught]
  · exact ⟨samePage_refl s, fun _ => rfl⟩
  · exact ⟨samePage_refl s, fun h => absurd (h.2 ha) hf⟩
  · exact ⟨samePage_refl s, fun _ => rfl⟩

theorem onSubmit_samePage (s : State) :
    SamePage s (onSubmit s).state ∧
    (ElementsSuffice s → noUncaught (onSubmit s).effects = true) := by
  unfold onSubmit
  split_ifs with hf
  · cases hb : s.suggestionsBox with
    | none =>
      refine ⟨by simpa [hideSuggestions, hb] using samePage_refl s, fun h => ?_⟩
      have := h.1 hf
      simp [hb] at this
    | some box => simp [hideSuggestions, hb, SamePage, noUncaught]
  · exact ⟨samePage_refl s, fun _ => rfl⟩

theorem allPresent_of_samePage (s t : State) (h : AllPresent s) (hp : SamePage s t)
    (hr : ItemsRendered t) : AllPresent t := by
  obtain ⟨h1, h2, _⟩ := h
  obtain ⟨p1, p2, p3⟩ := hp
  refine ⟨?_, by rw [p3]; exact h2, hr⟩
  simp only [State.autocompleteActive] at *
  rw [p1, p2]
  exact h1

theorem elementsSuffice_of_allPresent (s : State) (h : AllPresent s) : ElementsSuffice s := by
  obtain ⟨v, box, _, hb⟩ := (active_iff s).1 h.1
  exact ⟨fun _ => by simp [hb], fun _ => h.2.1⟩

theorem clickItem_allPresent (i : Nat) (s : State) (h : AllPresent s) :
    SamePage s (clickItem i s).state ∧ noUncaught (clickItem i s).effects = true := by
  obtain ⟨ha, hform, hr⟩ := h
  obtain ⟨v, box, hi, hb⟩ := (active_iff s).1 ha
  cases hit : s.items[i]? with
  | none =>
    simp only [clickItem, hit]
    exact ⟨samePage_refl s, rfl⟩
  | some it =>
    have hmem : it.suggestion ∈ s.items.map (fun it => it.suggestion) :=
      List.mem_map_of_mem _ (List.getElem?_mem hit)
    obtain ⟨r, hrender⟩ := hr _ hmem
    obtain ⟨_, _, text, value, htext, hvalue⟩ := renderItem_ok _ _ hrender
    rw [clickItem_rendered i it text value s ha hform hit htext hvalue]
    simp [SamePage, hi, hb, noUncaught]

theorem onKeydown_allPresent (key : String) (s : State) (h : AllPresent s) :
    SamePage s (onKeydown key s).state ∧ noUncaught (onKeydown key s).effects = true := by
  obtain ⟨v, box, hi, hb⟩ := (active_iff s).1 h.1
  have hclick := clickItem_allPresent s.currentFocus.toNat s h
  simp only [onKeydown, hi, hb, hideSuggestions]
  split_ifs
  · simp [SamePage, hi, hb, noUncaught]
  · simp [SamePage, hi, hb, noUncaught]
  · refine ⟨hclick.1, ?_⟩
    have := hclick.2
    simpa [noUncaught] using this
  · exact ⟨samePage_refl s, rfl⟩
  · simp [SamePage, hi, hb, noUncaught]
  · exact ⟨samePage_refl s, rfl⟩

theorem step_allPresent (ev : Event) (s : State) (h : AllPresent s) :
    AllPresent (step ev s).state ∧ noUncaught (step ev s).effects = true := by
  have hr := step_rendered ev s h.2.2
  have hs := elementsSuffice_of_allPresent s h
  have key : SamePage s (step ev s).state ∧ noUncaught (step ev s).effects = true := by
    cases ev with
    | input now value => exact onInput_samePage now value s
    | timer id => exact onTimer_samePage id s
    | fetchResult r => exact onFetchResult_samePage r s
    | keydown key => exact onKeydown_allPresent key s h
    | documentClick t =>
      exact ⟨(onDocumentClick_samePage t s).1, (onDocumentClick_samePage t s).2 hs⟩
    | itemClick i => exact clickItem_allPresent i s h
    | submit => exact ⟨(onSubmit_samePage s).1, (onSubmit_samePage s).2 hs⟩
  exact ⟨allPresent_of_samePage s _ h key.1 hr, key.2⟩

theorem noUncaught_append (a b : List Effect) (ha : noUncaught a = true)
    (hb : noUncaught b = true) : noUncaught (a ++ b) = true := by
  simp only [noUncaught, List.all_append, Bool.and_eq_true] at *
  exact ⟨ha, hb⟩

/-- On a page that has the input, the container and the form, no listener
leaves an exception uncaught, whatever the sequence of events. -/
theorem run_allPresent (evs : List Event) (s : State) (h : AllPresent s) :
    AllPresent (run evs s).state ∧ noUncaught (run evs s).effects = true := by
  induction evs generalizing s with
  | nil => exact ⟨h, rfl⟩
  | cons ev evs ih =>
    have h1 := step_allPresent ev s h
    have h2 := ih (step ev s).state h1.1
    exact ⟨h2.1, noUncaught_append _ _ h1.2 h2.2⟩

end Autocomplete
